import Mathlib

/-!
Verification of the OhMyColormap image-templating and Modrinth API core,
shallowly embedded from `src/util/image_processing.py` and
`src/util/modrinth/api.py`.  Python integers are modelled as `Int`,
raised `ValueError`s as `Except.error`, and RGBA raster images as
width/height plus a pixel function.
-/

namespace OhMyColormap

/-! ### Colors and hex parsing (`src/util/image_processing.py`) -/

/-- A Python RGB color triple (`Color = tuple[int, int, int]`). -/
abbrev Color := Int × Int × Int

/-- An RGBA pixel as produced by PIL in mode `"RGBA"`. -/
abbrev Pix := Int × Int × Int × Int

/-- The all-zero transparent pixel that PIL uses for fresh `Image.new` canvases. -/
def zeroPix : Pix := (0, 0, 0, 0)

/-- Value of a single ASCII hexadecimal digit, `none` on any other character. -/
def hexDigitVal? (c : Char) : Option Int :=
  let n := c.toNat
  if 48 ≤ n ∧ n ≤ 57 then some ((n : Int) - 48)
  else if 97 ≤ n ∧ n ≤ 102 then some ((n : Int) - 87)
  else if 65 ≤ n ∧ n ≤ 70 then some ((n : Int) - 55)
  else none

/-- Whether a character is ASCII whitespace as stripped by Python's `int()`. -/
def pySpace (c : Char) : Bool :=
  c.toNat = 32 ∨ c.toNat = 9 ∨ c.toNat = 10 ∨ c.toNat = 13 ∨ c.toNat = 11 ∨ c.toNat = 12

/-- Python `int(s, 16)` restricted to the two-character slices that
`convert_hex_to_rgb` passes to it: two hex digits, or a sign / ASCII
whitespace combined with a single hex digit.  `none` models a raised
`ValueError`. -/
def pyIntHex2? (cs : List Char) : Option Int :=
  match cs with
  | [c1, c2] =>
    match hexDigitVal? c1, hexDigitVal? c2 with
    | some d1, some d2 => some (16 * d1 + d2)
    | some d1, none => if pySpace c2 then some d1 else none
    | none, some d2 =>
      if c1 = '+' then some d2
      else if c1 = '-' then some (-d2)
      else if pySpace c1 then some d2
      else none
    | none, none => none
  | _ => none

/-- `convert_hex_to_rgb` from `src/util/image_processing.py`:
`hex_color.lstrip('#')` removes every leading `'#'`, a remainder whose
length is not 6 raises `ValueError`, and otherwise the three 2-character
slices are parsed with `int(_, 16)` (whose own failure also raises
`ValueError`). -/
def convert_hex_to_rgb (hex_color : String) : Except String Color :=
  let s := hex_color.toList.dropWhile (· == '#')
  if s.length ≠ 6 then
    .error "Input should be a 6-character hex color code."
  else
    match pyIntHex2? (s.take 2), pyIntHex2? ((s.drop 2).take 2), pyIntHex2? ((s.drop 4).take 2) with
    | some r, some g, some b => .ok (r, g, b)
    | _, _, _ => .error "invalid literal for int() with base 16"

/-! ### Images -/

/-- An RGBA raster image: a size together with a pixel function.  Only the
pixels with `0 ≤ x < w` and `0 ≤ y < h` are meaningful; the operations
below return `zeroPix` outside their bounds, matching PIL's behaviour of
zero-filling fresh canvases and out-of-image crops. -/
structure Img where
  w : Int
  h : Int
  pix : Int → Int → Pix

/-- `PIL.Image.new("RGBA", (w, h))`: a fully transparent canvas. -/
def newImg (w h : Int) : Img := ⟨w, h, fun _ _ => zeroPix⟩

/-- `image.crop((l, t, r, b))`: the half-open box is copied; source pixels
outside the image contribute transparent black, as in PIL. -/
def cropImg (im : Img) (box : Int × Int × Int × Int) : Img :=
  let (l, t, r, b) := box
  { w := r - l, h := b - t,
    pix := fun x y =>
      if 0 ≤ x ∧ x < r - l ∧ 0 ≤ y ∧ y < b - t ∧
         0 ≤ l + x ∧ l + x < im.w ∧ 0 ≤ t + y ∧ t + y < im.h then
        im.pix (l + x) (t + y)
      else zeroPix }

/-- `dst.paste(src, (px, py))` without a mask: the source rectangle is
copied over the destination, clipped to the destination canvas. -/
def pasteImg (dst src : Img) (px py : Int) : Img :=
  { dst with
    pix := fun x y =>
      if 0 ≤ x ∧ x < dst.w ∧ 0 ≤ y ∧ y < dst.h ∧
         px ≤ x ∧ x < px + src.w ∧ py ≤ y ∧ y < py + src.h then
        src.pix (x - px) (y - py)
      else dst.pix x y }

/-- `image.resize((tw, th), Image.Resampling.NEAREST)`: each target pixel
center is mapped through the affine scale and the nearest source pixel is
taken, as in Pillow's nearest filter. -/
def resizeNearest (im : Img) (tw th : Int) : Img :=
  { w := tw, h := th,
    pix := fun x y =>
      if 0 ≤ x ∧ x < tw ∧ 0 ≤ y ∧ y < th then
        im.pix ((2 * x + 1) * im.w / (2 * tw)) ((2 * y + 1) * im.h / (2 * th))
      else zeroPix }

/-- Source-over blending of one RGBA pixel onto another, modelling
`PIL.Image.alpha_composite` (no theorem below inspects the blended
values, only the errors raised around the compositing). -/
def alphaCompositePix (d s : Pix) : Pix :=
  let (dr, dg, db, da) := d
  let (sr, sg, sb, sa) := s
  let outA255 := sa * 255 + da * (255 - sa)
  if outA255 = 0 then (0, 0, 0, 0)
  else
    ((sr * sa * 255 + dr * da * (255 - sa)) / outA255,
     (sg * sa * 255 + dg * da * (255 - sa)) / outA255,
     (sb * sa * 255 + db * da * (255 - sa)) / outA255,
     outA255 / 255)

/-- `PIL.Image.alpha_composite(dst, src)`: PIL requires the two images to
have the same size and raises `ValueError` otherwise. -/
def alphaComposite (dst src : Img) : Except String Img :=
  if dst.w = src.w ∧ dst.h = src.h then
    .ok { dst with pix := fun x y => alphaCompositePix (dst.pix x y) (src.pix x y) }
  else .error "images do not match"

/-! ### Template substitution (`generate_image_from_template`, `apply_template`) -/

/-- The inner `for target_color, replacement_color in zip(...)` loop with
its `break`: the first pair whose old color equals the pixel's RGB wins. -/
def firstReplacement : List (Color × Color) → Color → Color
  | [], c => c
  | (target, repl) :: rest, c => if c = target then repl else firstReplacement rest c

/-- One pixel of the substituted image: RGB replaced through
`firstReplacement`, alpha kept. -/
def substitutePix (pairs : List (Color × Color)) (p : Pix) : Pix :=
  let (r, g, b, a) := p
  let nc := firstReplacement pairs (r, g, b)
  (nc.1, nc.2.1, nc.2.2, a)

/-- `generate_image_from_template`: a length mismatch raises `ValueError`
before any pixel is touched; otherwise every in-bounds pixel of the fresh
RGBA canvas receives the substituted color with the original alpha. -/
def generate_image_from_template (template_image : Img) (old_colors new_colors : List Color) :
    Except String Img :=
  if old_colors.length ≠ new_colors.length then
    .error "The length of old_colors and new_colors lists must be the same."
  else
    .ok { w := template_image.w, h := template_image.h,
          pix := fun x y =>
            if 0 ≤ x ∧ x < template_image.w ∧ 0 ≤ y ∧ y < template_image.h then
              substitutePix (old_colors.zip new_colors) (template_image.pix x y)
            else zeroPix }

/-- The `[convert_hex_to_rgb(c) for c in template_config['templating_colors']]`
comprehension: colors are parsed left to right, the first failure raises. -/
def convertColors : List String → Except String (List Color)
  | [] => .ok []
  | s :: rest =>
    match convert_hex_to_rgb s with
    | .error e => .error e
    | .ok c =>
      match convertColors rest with
      | .error e => .error e
      | .ok cs => .ok (c :: cs)

/-- A template configuration.  The Python dict holds file paths; the
filesystem is an external collaborator, so the images the paths denote
are carried directly: `template = none` models a config without a
`'template'` key. -/
structure TemplateConfig where
  template : Option Img
  templating_colors : List String
  before : List Img
  after : List Img

/-- The `for layer in ...: composed = Image.alpha_composite(composed, layer)`
loops of `apply_template`: layers composite in list order, the first
compositing error (a PIL size mismatch) raises. -/
def compositeLayers (composed : Img) : List Img → Except String Img
  | [] => .ok composed
  | layer :: rest =>
    match alphaComposite composed layer with
    | .error e => .error e
    | .ok composed2 => compositeLayers composed2 rest

/-- `apply_template`: parse the templating colors, start from a blank
canvas sized to the base template (or 100x100 without one), composite the
`before` layers, the substituted template, then the `after` layers. -/
def apply_template (template_config : TemplateConfig) (replacement_colors : List Color) :
    Except String Img :=
  match template_config.template with
  | some base_template =>
    match convertColors template_config.templating_colors with
    | .error e => .error e
    | .ok target_colors =>
      match compositeLayers (newImg base_template.w base_template.h)
          template_config.before with
      | .error e => .error e
      | .ok composed =>
        match generate_image_from_template base_template target_colors replacement_colors with
        | .error e => .error e
        | .ok replaced =>
          match alphaComposite composed replaced with
          | .error e => .error e
          | .ok composed2 => compositeLayers composed2 template_config.after
  | none =>
    match compositeLayers (newImg 100 100) template_config.before with
    | .error e => .error e
    | .ok composed => compositeLayers composed template_config.after

/-! ### Nine-slice scaling (`nine_slice_scale`, `slice_dict`) -/

/-- The nine region names, in the insertion order of the Python dict
literal returned by `slice_dict`. -/
inductive SliceKey where
  | top_left | top | top_right | left | center | right | bottom_left | bottom | bottom_right
deriving DecidableEq, Repr

/-- Iteration order of `slices.items()` (Python dicts preserve insertion
order). -/
def keysOrder : List SliceKey :=
  [.top_left, .top, .top_right, .left, .center, .right, .bottom_left, .bottom, .bottom_right]

/-- `slice_dict` from `src/util/image_processing.py`, as a function from
region name to its `(left, upper, right, lower)` box. -/
def slice_dict (bottom height width left right top : Int) : SliceKey → Int × Int × Int × Int
  | .top_left => (0, 0, left, top)
  | .top => (left, 0, width - right, top)
  | .top_right => (width - right, 0, width, top)
  | .left => (0, top, left, height - bottom)
  | .center => (left, top, width - right, height - bottom)
  | .right => (width - right, top, width, height - bottom)
  | .bottom_left => (0, height - bottom, left, height)
  | .bottom => (left, height - bottom, width - right, height)
  | .bottom_right => (width - right, height - bottom, width, height)

/-- The start offsets of Python's `range(0, stop, step)` for the positive
steps the code uses (the region dimensions); empty otherwise. -/
def tileStarts (stop step : Int) : List Int :=
  if 0 < step then
    (List.range ((stop - 1) / step + 1).toNat).map (fun i : Nat => step * (i : Int))
  else []

/-- The padding crop at the top of `nine_slice_scale`:
`image.crop((pad_left, pad_top, src_width - pad_right, src_height - pad_bottom))`. -/
def nineSliceCropped (image : Img) (padding : Int × Int × Int × Int) : Img :=
  let (pad_left, pad_top, pad_right, pad_bottom) := padding
  cropImg image (pad_left, pad_top, image.w - pad_right, image.h - pad_bottom)

/-- The body of the `for key, box in slices.items()` loop of
`nine_slice_scale`, producing the processed region that is pasted for a
given key: optional one-axis tiling, optional two-axis tiling for the
center, and the nearest-neighbor resize branch. -/
def nineSliceRegion (cropped_image : Img) (left top right bottom width height : Int)
    (tile : Bool) (key : SliceKey) : Img :=
  let box := slice_dict bottom cropped_image.h cropped_image.w left right top key
  let target_box := slice_dict bottom height width left right top key
  let region := cropImg cropped_image box
  let target_width := target_box.2.2.1 - target_box.1
  let target_height := target_box.2.2.2 - target_box.2.1
  let region :=
    if (key = .top ∨ key = .center ∨ key = .bottom) ∧ tile then
      (tileStarts target_width region.w).foldl
        (fun tiled x => pasteImg tiled region x 0) (newImg target_width region.h)
    else if (key = .left ∨ key = .center ∨ key = .right) ∧ tile then
      (tileStarts target_height region.h).foldl
        (fun tiled y => pasteImg tiled region 0 y) (newImg region.w target_height)
    else region
  if key = .center ∧ tile then
    (tileStarts target_width region.w).foldl
      (fun tiled x =>
        (tileStarts target_height region.h).foldl
          (fun tiled y =>
            pasteImg tiled
              (cropImg region (0, 0, min region.w (target_width - x), min region.h (target_height - y)))
              x y)
          tiled)
      (newImg target_width target_height)
  else if tile = false ∨ (key = .top ∨ key = .bottom ∨ key = .left ∨ key = .right ∨ key = .center) then
    resizeNearest region target_width target_height
  else region

/-- `nine_slice_scale`: crop away the padding, slice source and target
geometry, process each region and paste it at its target box origin into
a fresh canvas, in dict order. -/
def nine_slice_scale (image : Img) (left top right bottom width height : Int)
    (tile : Bool) (padding : Int × Int × Int × Int) : Img :=
  let cropped_image := nineSliceCropped image padding
  keysOrder.foldl
    (fun result key =>
      let target_box := slice_dict bottom height width left right top key
      pasteImg result (nineSliceRegion cropped_image left top right bottom width height tile key)
        target_box.1 target_box.2.1)
    (newImg width height)

/-! ### Rate limiting and requests (`src/util/modrinth/api.py`) -/

/-- The shared rate-limit record guarded by `_ratelimit_lock`. -/
structure RateLimitState where
  limit : Int
  remaining : Int
  reset : Int
  lastChecked : Int
deriving DecidableEq, Repr

/-- One `X-Ratelimit-*` response header: absent, an integer value, or
present but not parseable by `int()`. -/
inductive HeaderVal where
  | absent
  | value (n : Int)
  | malformed
deriving DecidableEq, Repr

/-- The three rate-limit headers of a response. -/
structure RateHeaders where
  limit : HeaderVal
  remaining : HeaderVal
  reset : HeaderVal
deriving DecidableEq, Repr

/-- `int(response.headers.get(name, default))`: `none` models the
`ValueError` that sends `_update_ratelimit` into its fallback branch. -/
def parseHeader (h : HeaderVal) (default : Int) : Option Int :=
  match h with
  | .absent => some default
  | .value n => some n
  | .malformed => none

/-- `ModrinthAPI._update_ratelimit`: on any parse failure all three
fields fall back (old limit, old remaining, reset 0); `last_checked` is
always refreshed to the current time. -/
def update_ratelimit (st : RateLimitState) (h : RateHeaders) (now : Int) : RateLimitState :=
  match parseHeader h.limit st.limit, parseHeader h.remaining st.remaining, parseHeader h.reset 0 with
  | some l, some r, some t => { limit := l, remaining := r, reset := t, lastChecked := now }
  | _, _, _ => { limit := st.limit, remaining := st.remaining, reset := 0, lastChecked := now }

/-- `ModrinthAPI._respect_ratelimit`: returns the seconds slept together
with the state after the call.  An exhausted budget (`remaining <= 0`)
sleeps for `reset` seconds when positive, then restores `remaining` to
`limit` and clears `reset`. -/
def respect_ratelimit (st : RateLimitState) : Int × RateLimitState :=
  if st.remaining ≤ 0 then
    (if st.reset > 0 then st.reset else 0,
     { st with remaining := st.limit, reset := 0 })
  else (0, st)

/-- A JSON object body, shallowly modelled as string key/value pairs
(claims only inspect whole bodies and the `{"error": text}` fallback). -/
abbrev DictKV := List (String × String)

/-- The `ModrinthAPIError` exception class. -/
structure ModrinthAPIError where
  message : String
  statusCode : Option Nat
  response : DictKV
deriving DecidableEq, Repr

/-- An HTTP response as observed by `_request`: status, raw text, the
result of `response.json()` (`none` when parsing would raise), the
rate-limit headers, and the fields used by `requests`' error message. -/
structure HttpResponse where
  statusCode : Nat
  text : String
  jsonBody : Option DictKV
  headers : RateHeaders
  reason : String
  url : String
deriving DecidableEq, Repr

/-- Whether `response.raise_for_status()` raises `requests.HTTPError`. -/
def isHttpError (status : Nat) : Bool :=
  400 ≤ status ∧ status < 600

/-- The `str(e)` of the `requests.HTTPError` raised by
`raise_for_status`, as formatted by the `requests` library. -/
def httpErrorMessage (resp : HttpResponse) : String :=
  if resp.statusCode < 500 then
    toString resp.statusCode ++ " Client Error: " ++ resp.reason ++ " for url: " ++ resp.url
  else
    toString resp.statusCode ++ " Server Error: " ++ resp.reason ++ " for url: " ++ resp.url

/-- What a single `_request` produces once a response has arrived. -/
inductive RequestOutcome where
  | success (body : DictKV)
  | apiError (e : ModrinthAPIError)
  | pyError (msg : String)
deriving DecidableEq, Repr

/-- The try/except body of `_request`: an HTTP error status becomes a
`ModrinthAPIError` carrying the status code and the parsed JSON error
body (falling back to `{"error": response.text}`); a success status
returns the parsed JSON body, or an empty dict for an empty body.  A
success body that fails to parse raises an uncaught decode error. -/
def requestOutcome (resp : HttpResponse) : RequestOutcome :=
  if isHttpError resp.statusCode then
    .apiError
      { message := httpErrorMessage resp,
        statusCode := some resp.statusCode,
        response :=
          match resp.jsonBody with
          | some j => j
          | none => [("error", resp.text)] }
  else if resp.text = "" then .success []
  else
    match resp.jsonBody with
    | some j => .success j
    | none => .pyError "JSONDecodeError"

/-- `ModrinthAPI._request` around one response: the pre-flight
`_respect_ratelimit` wait, then the call with `_update_ratelimit` on its
response, then the outcome.  Returns (seconds slept, final rate state,
outcome). -/
def request_step (st : RateLimitState) (resp : HttpResponse) (now : Int) :
    Int × RateLimitState × RequestOutcome :=
  let (sleepTime, st1) := respect_ratelimit st
  let st2 := update_ratelimit st1 resp.headers now
  (sleepTime, st2, requestOutcome resp)

/-! ### The parallel executor (`ModrinthAPI.parallel_requests`) -/

/-- A Python value as far as the executor can observe it: an integer, a
string, `None` (the initial content of `results`), or an `Exception`
instance. -/
inductive PyVal where
  | vint (n : Int)
  | vstr (s : String)
  | vnone
  | vexn (tag : Nat) (msg : String)
deriving DecidableEq, Repr

/-- `isinstance(r, Exception)`. -/
def PyVal.isException : PyVal → Bool
  | .vexn _ _ => true
  | _ => false

/-- What one zero-argument operation does when called: return a value or
raise an exception. -/
inductive OpBehavior where
  | returns (v : PyVal)
  | raises (tag : Nat) (msg : String)
deriving DecidableEq, Repr

/-- The default used for out-of-range `getD` reads of the batch; never
reached under the theorems' bounds. -/
def defaultOp : OpBehavior := .returns .vnone

/-- `run_with_ratelimit`: the operation's exception is captured and
returned as the result value.  (Its `_respect_ratelimit()` call touches
only the rate-limit state modelled separately above, never the result.) -/
def runWithRatelimit : OpBehavior → PyVal
  | .returns v => v
  | .raises tag msg => .vexn tag msg

/-- The `results[idx] = future.result()` write-back loop: starting from
`[None] * len(requests_list)`, the futures complete in `order` and each
stores its operation's captured result at its submission index. -/
def fillResults (ops : List OpBehavior) (order : List Nat) : List PyVal :=
  order.foldl
    (fun acc i => acc.set i (runWithRatelimit (ops.getD i defaultOp)))
    (List.replicate ops.length PyVal.vnone)

/-- `ModrinthAPI.parallel_requests`, parametrized by the completion order
of the futures (any permutation of the submission indices): fill the
results array, then re-raise the first result that is an `Exception`
instance, in index order, else return the results. -/
def parallel_requests (ops : List OpBehavior) (order : List Nat) : Except PyVal (List PyVal) :=
  let results := fillResults ops order
  match results.find? (fun r => r.isException) with
  | some e => .error e
  | none => .ok results

/-! ### Concrete objects used by the witnesses -/

/-- The 2x1 base template of the concrete templating scenario: pixels
`(255,0,0,255)` and `(0,255,0,255)`. -/
def c1Base : Img :=
  ⟨2, 1, fun x _ => if x = 0 then (255, 0, 0, 255) else (0, 255, 0, 255)⟩

/-- A 10x10 source image with pairwise distinct pixels, for the
nine-slice witnesses. -/
def nsTestImg : Img := ⟨10, 10, fun x y => (x, y, x + y, 255)⟩

/-! ### Helper lemmas -/

lemma hexDigitVal?_bounds {c : Char} {v : Int} (h : hexDigitVal? c = some v) :
    0 ≤ v ∧ v ≤ 15 := by
  simp only [hexDigitVal?] at h
  split_ifs at h <;> simp_all <;> omega

lemma convertColors_length {l : List String} {cs : List Color}
    (h : convertColors l = .ok cs) : cs.length = l.length := by
  induction l generalizing cs with
  | nil =>
    simp only [convertColors, Except.ok.injEq] at h
    simp [← h]
  | cons s rest ih =>
    simp only [convertColors] at h
    cases hc : convert_hex_to_rgb s with
    | error e => rw [hc] at h; simp at h
    | ok c =>
      rw [hc] at h
      cases hr : convertColors rest with
      | error e => rw [hr] at h; simp at h
      | ok cs' =>
        rw [hr] at h
        simp only [Except.ok.injEq] at h
        simp [← h, ih hr]

lemma firstReplacement_no_match (os ns : List Color) (c : Color)
    (h : ∀ i, i < os.length → c ≠ os.getD i (0, 0, 0)) :
    firstReplacement (os.zip ns) c = c := by
  induction os generalizing ns with
  | nil => cases ns <;> simp [firstReplacement]
  | cons o os' ih =>
    cases ns with
    | nil => simp [firstReplacement]
    | cons n ns' =>
      have h0 : c ≠ o := by simpa using h 0 (by simp)
      simp only [List.zip_cons_cons, firstReplacement, if_neg h0]
      exact ih ns' fun i hi => by simpa using h (i + 1) (by simpa using hi)

lemma firstReplacement_first_match (os ns : List Color) (c : Color) (k : Nat)
    (hk : k < os.length) (hkn : k < ns.length)
    (hmatch : c = os.getD k (0, 0, 0))
    (hfirst : ∀ j, j < k → c ≠ os.getD j (0, 0, 0)) :
    firstReplacement (os.zip ns) c = ns.getD k (0, 0, 0) := by
  induction os generalizing ns k with
  | nil => simp at hk
  | cons o os' ih =>
    cases ns with
    | nil => simp at hkn
    | cons n ns' =>
      cases k with
      | zero =>
        simp only [List.getD_cons_zero] at hmatch
        simp [firstReplacement, hmatch]
      | succ k' =>
        have h0 : c ≠ o := by simpa using hfirst 0 (Nat.succ_pos k')
        simp only [List.zip_cons_cons, firstReplacement, if_neg h0]
        exact ih ns' k' (by simpa using hk) (by simpa using hkn)
          (by simpa using hmatch) (fun j hj => by simpa using hfirst (j + 1) (by omega))

/-! ### C5: hex color parsing -/

/-- C5 counterexample: the code strips ALL leading hash characters
(Python `lstrip('#')`), so `"##FF0000"`, whose length after stripping a
single leading hash is 7, is accepted instead of raising; moreover
Python's `int(_, 16)` accepts signed 2-character groups, so `"+1+2+3"`
is accepted although it is not 6 hex digits. -/
theorem c5_hex_counterexample :
    "##FF0000".toList.head? = some '#' ∧
    ("##FF0000".toList.drop 1).length ≠ 6 ∧
    convert_hex_to_rgb "##FF0000" = Except.ok (255, 0, 0) ∧
    convert_hex_to_rgb "+1+2+3" = Except.ok (1, 2, 3) :=
  ⟨by decide, by decide, by rfl, by rfl⟩

/-- C5 (amended): `convert_hex_to_rgb` strips all leading hash
characters; every remainder of 6 hex digits yields the three 2-digit hex
pair values, each in [0,255]; every remainder whose length is not 6
raises `ValueError`.  (Length-6 remainders with sign or whitespace
characters in place of hex digits are additionally accepted by Python's
`int(_, 16)`.) -/
theorem c5_hex_parsing (s bad : String) (a b c d e f : Char) (va vb vc vd ve vf : Int)
    (hs : s.toList.dropWhile (· == '#') = [a, b, c, d, e, f])
    (ha : hexDigitVal? a = some va) (hb : hexDigitVal? b = some vb)
    (hc : hexDigitVal? c = some vc) (hd : hexDigitVal? d = some vd)
    (he : hexDigitVal? e = some ve) (hf : hexDigitVal? f = some vf)
    (hbad : (bad.toList.dropWhile (· == '#')).length ≠ 6) :
    convert_hex_to_rgb s = .ok (16 * va + vb, 16 * vc + vd, 16 * ve + vf) ∧
    (0 ≤ 16 * va + vb ∧ 16 * va + vb ≤ 255) ∧
    (0 ≤ 16 * vc + vd ∧ 16 * vc + vd ≤ 255) ∧
    (0 ≤ 16 * ve + vf ∧ 16 * ve + vf ≤ 255) ∧
    convert_hex_to_rgb bad = .error "Input should be a 6-character hex color code." := by
  obtain ⟨ha1, ha2⟩ := hexDigitVal?_bounds ha
  obtain ⟨hb1, hb2⟩ := hexDigitVal?_bounds hb
  obtain ⟨hc1, hc2⟩ := hexDigitVal?_bounds hc
  obtain ⟨hd1, hd2⟩ := hexDigitVal?_bounds hd
  obtain ⟨he1, he2⟩ := hexDigitVal?_bounds he
  obtain ⟨hf1, hf2⟩ := hexDigitVal?_bounds hf
  refine ⟨?_, ⟨by omega, by omega⟩, ⟨by omega, by omega⟩, ⟨by omega, by omega⟩, ?_⟩
  · simp only [convert_hex_to_rgb, hs]
    simp [pyIntHex2?, ha, hb, hc, hd, he, hf]
  · simp only [convert_hex_to_rgb]
    rw [if_pos hbad]

/-- C5 witness: a concrete valid hex string and a concrete invalid one. -/
theorem c5_hex_parsing_witness :
    "#1A2B3C".toList.dropWhile (· == '#') = ['1', 'A', '2', 'B', '3', 'C'] ∧
    ("bad".toList.dropWhile (· == '#')).length ≠ 6 ∧
    convert_hex_to_rgb "#1A2B3C" = .ok (16 * 1 + 10, 16 * 2 + 11, 16 * 3 + 12) ∧
    convert_hex_to_rgb "bad" = .error "Input should be a 6-character hex color code." := by
  have h := c5_hex_parsing "#1A2B3C" "bad" '1' 'A' '2' 'B' '3' 'C' 1 10 2 11 3 12
    (by decide) (by decide) (by decide) (by decide) (by decide) (by decide) (by decide)
    (by decide)
  exact ⟨by decide, by decide, h.1, h.2.2.2.2⟩

/-! ### C2: mismatched substitution list lengths -/

/-- Compositing layers of the canvas's size succeeds and keeps the
canvas's size (PIL would raise on a size mismatch instead). -/
lemma compositeLayers_ok (layers : List Img) (composed : Img)
    (h : ∀ im ∈ layers, im.w = composed.w ∧ im.h = composed.h) :
    ∃ out, compositeLayers composed layers = .ok out ∧
      out.w = composed.w ∧ out.h = composed.h := by
  induction layers generalizing composed with
  | nil => exact ⟨composed, rfl, rfl, rfl⟩
  | cons layer rest ih =>
    obtain ⟨hw, hh⟩ := h layer (by simp)
    have hcomp : alphaComposite composed layer =
        .ok { composed with
              pix := fun x y => alphaCompositePix (composed.pix x y) (layer.pix x y) } := by
      unfold alphaComposite
      rw [if_pos ⟨hw.symm, hh.symm⟩]
    obtain ⟨out, hout, how, hoh⟩ := ih
      { composed with pix := fun x y => alphaCompositePix (composed.pix x y) (layer.pix x y) }
      (fun im him => h im (by simp [him]))
    refine ⟨out, ?_, how, hoh⟩
    simp only [compositeLayers]
    rw [hcomp]
    exact hout

/-- C2: with `len(old_colors) != len(new_colors)` the substitution raises
`ValueError` independently of the image (no pixel is consulted), and
`apply_template` over a base template, base-sized before-layers (so the
earlier compositing succeeds, as PIL rejects mismatched sizes) and a
mismatched replacement list fails with the same error. -/
theorem c2_length_mismatch (img : Img) (old_colors new_colors replacement : List Color)
    (cfg : TemplateConfig) (base : Img) (targets : List Color)
    (hmis : old_colors.length ≠ new_colors.length)
    (hbase : cfg.template = some base)
    (hparse : convertColors cfg.templating_colors = .ok targets)
    (hlayers : ∀ im ∈ cfg.before, im.w = base.w ∧ im.h = base.h)
    (hlen : cfg.templating_colors.length ≠ replacement.length) :
    generate_image_from_template img old_colors new_colors =
      .error "The length of old_colors and new_colors lists must be the same." ∧
    apply_template cfg replacement =
      .error "The length of old_colors and new_colors lists must be the same." := by
  have htarg : targets.length = cfg.templating_colors.length := convertColors_length hparse
  constructor
  · simp [generate_image_from_template, hmis]
  · have hmis2 : targets.length ≠ replacement.length := by omega
    obtain ⟨composed, hcomp, -, -⟩ := compositeLayers_ok cfg.before
      (newImg base.w base.h) (fun im him => hlayers im him)
    simp [apply_template, hbase, hparse, hcomp, generate_image_from_template, hmis2]

/-- C2 witness: concrete mismatched configuration. -/
theorem c2_length_mismatch_witness :
    ([((255 : Int), 0, 0)] : List Color).length ≠ ([] : List Color).length ∧
    (∀ im ∈ ([] : List Img), im.w = c1Base.w ∧ im.h = c1Base.h) ∧
    convertColors ["#FF0000"] = .ok [(255, 0, 0)] ∧
    (["#FF0000"] : List String).length ≠ ([] : List Color).length ∧
    generate_image_from_template c1Base [(255, 0, 0)] [] =
      .error "The length of old_colors and new_colors lists must be the same." ∧
    apply_template ⟨some c1Base, ["#FF0000"], [], []⟩ [] =
      .error "The length of old_colors and new_colors lists must be the same." := by
  have h := c2_length_mismatch c1Base [(255, 0, 0)] [] []
    ⟨some c1Base, ["#FF0000"], [], []⟩ c1Base [(255, 0, 0)]
    (by decide) rfl (by rfl) (by simp) (by decide)
  exact ⟨by decide, by simp, by rfl, by decide, h.1, h.2⟩

/-! ### C1: first-match color substitution -/

/-- C1: with equal-length color lists, `generate_image_from_template`
succeeds and maps every in-bounds pixel by scanning `old_colors` in list
order: the pixel whose RGB matches no old color is unchanged, and a pixel
whose RGB first matches `old_colors[k]` receives `new_colors[k]` with its
original alpha. -/
theorem c1_template_substitution (img : Img) (old_colors new_colors : List Color)
    (hlen : old_colors.length = new_colors.length) (x y : Int)
    (hx0 : 0 ≤ x) (hxw : x < img.w) (hy0 : 0 ≤ y) (hyh : y < img.h) :
    ∃ out, generate_image_from_template img old_colors new_colors = .ok out ∧
      out.w = img.w ∧ out.h = img.h ∧
      ∀ r g b a2, img.pix x y = (r, g, b, a2) →
        ((∀ i, i < old_colors.length → (r, g, b) ≠ old_colors.getD i (0, 0, 0)) →
          out.pix x y = (r, g, b, a2)) ∧
        (∀ k, k < old_colors.length → (r, g, b) = old_colors.getD k (0, 0, 0) →
          (∀ j, j < k → (r, g, b) ≠ old_colors.getD j (0, 0, 0)) →
          out.pix x y =
            ((new_colors.getD k (0, 0, 0)).1, (new_colors.getD k (0, 0, 0)).2.1,
             (new_colors.getD k (0, 0, 0)).2.2, a2)) := by
  refine ⟨{ w := img.w, h := img.h,
            pix := fun u v =>
              if 0 ≤ u ∧ u < img.w ∧ 0 ≤ v ∧ v < img.h then
                substitutePix (old_colors.zip new_colors) (img.pix u v)
              else zeroPix },
          by simp [generate_image_from_template, hlen], rfl, rfl, ?_⟩
  intro r g b a2 hpix
  have hbounds : 0 ≤ x ∧ x < img.w ∧ 0 ≤ y ∧ y < img.h := ⟨hx0, hxw, hy0, hyh⟩
  constructor
  · intro hnone
    have hfr := firstReplacement_no_match old_colors new_colors (r, g, b) hnone
    simp only [if_pos hbounds, hpix, substitutePix]
    rw [hfr]
  · intro k hk hkm hkfirst
    have hfr := firstReplacement_first_match old_colors new_colors (r, g, b) k hk
      (by omega) hkm hkfirst
    simp only [if_pos hbounds, hpix, substitutePix]
    rw [hfr]

/-- C1 witness: the concrete scenario with
`templating_colors=["#FF0000","#00FF00"]` converted to old colors,
replacements `[(0,0,255),(255,255,0)]`, and the 2x1 base image; output
pixels are `(0,0,255,255)` and `(255,255,0,255)`. -/
theorem c1_template_substitution_witness :
    ([((255 : Int), 0, 0), (0, 255, 0)] : List Color).length =
      ([((0 : Int), 0, 255), (255, 255, 0)] : List Color).length ∧
    convertColors ["#FF0000", "#00FF00"] = .ok [(255, 0, 0), (0, 255, 0)] ∧
    ∃ out,
      generate_image_from_template c1Base [(255, 0, 0), (0, 255, 0)]
        [(0, 0, 255), (255, 255, 0)] = .ok out ∧
      out.pix 0 0 = (0, 0, 255, 255) ∧ out.pix 1 0 = (255, 255, 0, 255) := by
  obtain ⟨out, hok, -, -, hchar⟩ :=
    c1_template_substitution c1Base [(255, 0, 0), (0, 255, 0)] [(0, 0, 255), (255, 255, 0)]
      (by decide) 0 0 (by decide) (by decide) (by decide) (by decide)
  obtain ⟨out2, hok2, -, -, hchar2⟩ :=
    c1_template_substitution c1Base [(255, 0, 0), (0, 255, 0)] [(0, 0, 255), (255, 255, 0)]
      (by decide) 1 0 (by decide) (by decide) (by decide) (by decide)
  have hsame : out2 = out := Except.ok.inj (hok2.symm.trans hok)
  refine ⟨by decide, by rfl, out, hok, ?_, ?_⟩
  · have := (hchar 255 0 0 255 (by decide)).2 0 (by decide) (by decide) (by omega)
    simpa using this
  · rw [← hsame]
    have := (hchar2 0 255 0 255 (by decide)).2 1 (by decide) (by decide)
      (fun j hj => by
        have hj0 : j = 0 := by omega
        subst hj0
        decide)
    simpa using this

/-! ### C8: rate-limit state invariants -/

/-- C8: a non-positive `remaining` is treated exactly like zero (never as
negative budget); an exhausted state sleeps `reset` seconds (when
positive) and refills `remaining` to `limit` clearing `reset`; a positive
`remaining` proceeds untouched without sleeping; the state is updated
from the response's rate headers after every completed call, and
`_request` checks the state before the call and updates it after. -/
theorem c8_ratelimit_state (st stPos stAny : RateLimitState) (resp : HttpResponse)
    (now l r t : Int)
    (hzero : st.remaining ≤ 0) (hpos : 0 < stPos.remaining) :
    respect_ratelimit st = respect_ratelimit { st with remaining := 0 } ∧
    (respect_ratelimit st).1 = max st.reset 0 ∧
    (respect_ratelimit st).2.remaining = st.limit ∧
    (respect_ratelimit st).2.reset = 0 ∧
    respect_ratelimit stPos = (0, stPos) ∧
    update_ratelimit stAny ⟨.value l, .value r, .value t⟩ now =
      { limit := l, remaining := r, reset := t, lastChecked := now } ∧
    (request_step stAny resp now).1 = (respect_ratelimit stAny).1 ∧
    (request_step stAny resp now).2.1 =
      update_ratelimit (respect_ratelimit stAny).2 resp.headers now := by
  refine ⟨?_, ?_, ?_, ?_, ?_, ?_, ?_, ?_⟩
  · simp [respect_ratelimit, hzero]
  · simp only [respect_ratelimit, if_pos hzero]
    split_ifs <;> omega
  · simp [respect_ratelimit, hzero]
  · simp [respect_ratelimit, hzero]
  · simp [respect_ratelimit]; omega
  · simp [update_ratelimit, parseHeader]
  · simp [request_step]
  · simp [request_step]

/-- C8 witness: concrete exhausted and non-exhausted states. -/
theorem c8_ratelimit_state_witness :
    ((⟨300, -2, 17, 5⟩ : RateLimitState).remaining ≤ 0) ∧
    (0 < (⟨300, 9, 17, 5⟩ : RateLimitState).remaining) ∧
    respect_ratelimit ⟨300, -2, 17, 5⟩ =
      respect_ratelimit { (⟨300, -2, 17, 5⟩ : RateLimitState) with remaining := 0 } ∧
    (respect_ratelimit ⟨300, -2, 17, 5⟩).1 = max 17 0 ∧
    (respect_ratelimit ⟨300, -2, 17, 5⟩).2.remaining = 300 ∧
    respect_ratelimit ⟨300, 9, 17, 5⟩ = (0, ⟨300, 9, 17, 5⟩) ∧
    update_ratelimit ⟨300, 9, 17, 5⟩ ⟨.value 300, .value 299, .value 42⟩ 77 =
      ⟨300, 299, 42, 77⟩ := by
  have h := c8_ratelimit_state ⟨300, -2, 17, 5⟩ ⟨300, 9, 17, 5⟩ ⟨300, 9, 17, 5⟩
    ⟨200, "", none, ⟨.absent, .absent, .absent⟩, "OK", "u"⟩ 77 300 299 42
    (by decide) (by decide)
  exact ⟨by decide, by decide, h.1, h.2.1, h.2.2.1, h.2.2.2.2.1, h.2.2.2.2.2.1⟩

/-! ### C9: single request semantics -/

/-- C9: `_request` performs the pre-flight rate-limit wait before the
call; an HTTP error status raises `ModrinthAPIError` carrying the status
code and the parsed JSON error body (`{"error": raw text}` when
unparseable); a success status returns the parsed JSON body, or an empty
dict for an empty body. -/
theorem c9_request_semantics (st : RateLimitState) (now : Int)
    (respErr respEmpty respJson : HttpResponse) (body : DictKV)
    (hErr : isHttpError respErr.statusCode = true)
    (hOkE : isHttpError respEmpty.statusCode = false) (hTxtE : respEmpty.text = "")
    (hOkJ : isHttpError respJson.statusCode = false) (hTxtJ : respJson.text ≠ "")
    (hBody : respJson.jsonBody = some body) :
    (request_step st respErr now).1 = (respect_ratelimit st).1 ∧
    (request_step st respErr now).2.2 = .apiError
      { message := httpErrorMessage respErr,
        statusCode := some respErr.statusCode,
        response :=
          match respErr.jsonBody with
          | some j => j
          | none => [("error", respErr.text)] } ∧
    (request_step st respEmpty now).2.2 = .success [] ∧
    (request_step st respJson now).2.2 = .success body := by
  refine ⟨by simp [request_step], ?_, ?_, ?_⟩
  · simp [request_step, requestOutcome, hErr]
  · simp [request_step, requestOutcome, hOkE, hTxtE]
  · simp [request_step, requestOutcome, hOkJ, hTxtJ, hBody]

/-- C9 witness: concrete error, empty-success and JSON-success responses. -/
theorem c9_request_semantics_witness :
    isHttpError 404 = true ∧ isHttpError 200 = false ∧
    (request_step ⟨300, 5, 0, 0⟩
        ⟨404, "nf", none, ⟨.absent, .absent, .absent⟩, "Not Found", "u"⟩ 9).2.2 =
      .apiError ⟨httpErrorMessage ⟨404, "nf", none, ⟨.absent, .absent, .absent⟩, "Not Found", "u"⟩,
        some 404, [("error", "nf")]⟩ ∧
    (request_step ⟨300, 5, 0, 0⟩
        ⟨204, "", none, ⟨.absent, .absent, .absent⟩, "No Content", "u"⟩ 9).2.2 = .success [] ∧
    (request_step ⟨300, 5, 0, 0⟩
        ⟨200, "x", some [("id", "abc")], ⟨.absent, .absent, .absent⟩, "OK", "u"⟩ 9).2.2 =
      .success [("id", "abc")] := by
  have h := c9_request_semantics ⟨300, 5, 0, 0⟩ 9
    ⟨404, "nf", none, ⟨.absent, .absent, .absent⟩, "Not Found", "u"⟩
    ⟨204, "", none, ⟨.absent, .absent, .absent⟩, "No Content", "u"⟩
    ⟨200, "x", some [("id", "abc")], ⟨.absent, .absent, .absent⟩, "OK", "u"⟩
    [("id", "abc")] (by decide) (by decide) (by decide) (by decide) (by decide) (by decide)
  exact ⟨by decide, by decide, h.2.1, h.2.2.1, h.2.2.2⟩

/-! ### Helper lemmas for the parallel executor -/

lemma getD_set_of_lt (l : List PyVal) (j : Nat) (v : PyVal) (i : Nat) (hi : i < l.length) :
    (l.set j v).getD i .vnone = if j = i then v else l.getD i .vnone := by
  rw [List.getD_eq_getElem?_getD, List.getD_eq_getElem?_getD, List.getElem?_set]
  by_cases hji : j = i
  · subst hji; simp [hi]
  · simp [hji]

lemma length_fold_set (order : List Nat) (f : Nat → PyVal) (acc : List PyVal) :
    (order.foldl (fun a i => a.set i (f i)) acc).length = acc.length := by
  induction order generalizing acc with
  | nil => rfl
  | cons j rest ih => rw [List.foldl_cons, ih, List.length_set]

lemma getD_fold_set (order : List Nat) (f : Nat → PyVal) (acc : List PyVal) (i : Nat)
    (hi : i < acc.length) :
    (order.foldl (fun a j => a.set j (f j)) acc).getD i .vnone =
      if i ∈ order then f i else acc.getD i .vnone := by
  induction order generalizing acc with
  | nil => simp
  | cons j rest ih =>
    rw [List.foldl_cons, ih _ (by rw [List.length_set]; exact hi)]
    by_cases hmem : i ∈ rest
    · simp [hmem]
    · rw [if_neg hmem, getD_set_of_lt _ _ _ _ hi]
      by_cases hji : j = i
      · subst hji; simp
      · rw [if_neg hji,
          if_neg (fun hc => (List.mem_cons.mp hc).elim (fun h1 => hji h1.symm) hmem)]

lemma fillResults_length (ops : List OpBehavior) (order : List Nat) :
    (fillResults ops order).length = ops.length := by
  rw [fillResults, length_fold_set, List.length_replicate]

lemma fillResults_getD (ops : List OpBehavior) (order : List Nat) (i : Nat)
    (hi : i < ops.length) (hmem : i ∈ order) :
    (fillResults ops order).getD i .vnone = runWithRatelimit (ops.getD i defaultOp) := by
  rw [fillResults, getD_fold_set _ _ _ _ (by rw [List.length_replicate]; exact hi),
    if_pos hmem]

lemma fillResults_eq_map (ops : List OpBehavior) (order : List Nat)
    (hperm : order.Perm (List.range ops.length)) :
    fillResults ops order = ops.map runWithRatelimit := by
  apply List.ext_getElem (by rw [fillResults_length, List.length_map])
  intro n h1 h2
  have hn : n < ops.length := by rwa [fillResults_length] at h1
  have hmem : n ∈ order := hperm.mem_iff.mpr (List.mem_range.mpr hn)
  have hgd := fillResults_getD ops order n hn hmem
  rw [List.getD_eq_getElem _ _ h1, List.getD_eq_getElem _ _ hn] at hgd
  rw [hgd, List.getElem_map]

lemma find?_some_first (p : PyVal → Bool) (l : List PyVal) (a : PyVal)
    (h : l.find? p = some a) :
    ∃ k, k < l.length ∧ l.getD k .vnone = a ∧ p a = true ∧
      ∀ j, j < k → p (l.getD j .vnone) = false := by
  induction l with
  | nil => simp at h
  | cons x xs ih =>
    rw [List.find?_cons] at h
    cases hpx : p x with
    | true =>
      rw [hpx] at h
      simp only [Option.some.injEq] at h
      exact ⟨0, by simp, by simpa using h.symm ▸ rfl, by rw [← h]; exact hpx,
        fun j hj => by omega⟩
    | false =>
      rw [hpx] at h
      obtain ⟨k, hk, hgd, hpa, hfirst⟩ := ih h
      exact ⟨k + 1, by simpa using hk, by simpa using hgd, hpa, fun j hj => by
        cases j with
        | zero => simpa using hpx
        | succ j' => simpa using hfirst j' (by omega)⟩

lemma find?_of_first (p : PyVal → Bool) (l : List PyVal) (k : Nat)
    (hk : k < l.length) (hp : p (l.getD k .vnone) = true)
    (hfirst : ∀ j, j < k → p (l.getD j .vnone) = false) :
    l.find? p = some (l.getD k .vnone) := by
  induction l generalizing k with
  | nil => simp at hk
  | cons x xs ih =>
    rw [List.find?_cons]
    cases k with
    | zero =>
      simp only [List.getD_cons_zero] at hp ⊢
      rw [hp]
    | succ k' =>
      have h0 : p x = false := by simpa using hfirst 0 (Nat.succ_pos k')
      rw [h0]
      simp only [List.getD_cons_succ] at hp ⊢
      exact ih k' (by simpa using hk) hp
        (fun j hj => by simpa using hfirst (j + 1) (by omega))

/-! ### C3: result order preservation -/

/-- C3: for any batch of operations that all return non-exception values,
`parallel_requests` returns a list of the same length in which entry `i`
is the value returned by operation `i`, for EVERY completion order of the
futures (any permutation of the submission indices). -/
theorem c3_parallel_order_independent (ops : List OpBehavior) (order : List Nat)
    (hperm : order.Perm (List.range ops.length))
    (hvals : ∀ b ∈ ops, ∃ v, b = OpBehavior.returns v ∧ v.isException = false) :
    ∃ res, parallel_requests ops order = .ok res ∧
      res.length = ops.length ∧
      ∀ i, i < ops.length → ops.getD i defaultOp = .returns (res.getD i .vnone) := by
  have hnone : (fillResults ops order).find? (fun r => r.isException) = none := by
    rw [fillResults_eq_map ops order hperm, List.find?_eq_none]
    intro r hr
    rw [List.mem_map] at hr
    obtain ⟨b, hb, rfl⟩ := hr
    obtain ⟨v, rfl, hv⟩ := hvals b hb
    simpa [runWithRatelimit] using hv
  refine ⟨fillResults ops order, ?_, fillResults_length ops order, ?_⟩
  · simp only [parallel_requests]
    rw [hnone]
  · intro i hi
    have hmem : i ∈ order := hperm.mem_iff.mpr (List.mem_range.mpr hi)
    rw [fillResults_getD ops order i hi hmem]
    obtain ⟨v, hb, hv⟩ := hvals (ops.getD i defaultOp)
      (by rw [List.getD_eq_getElem _ _ hi]; exact List.getElem_mem hi)
    rw [hb]
    rfl

/-- C3 witness: three index-tagged operations completing in a scrambled
order still produce the submission-ordered results. -/
theorem c3_parallel_order_independent_witness :
    ([2, 0, 1] : List Nat).Perm (List.range 3) ∧
    ∃ res,
      parallel_requests
        [OpBehavior.returns (.vint 10), .returns (.vint 11), .returns (.vint 12)]
        [2, 0, 1] = .ok res ∧
      res.length = 3 ∧
      ∀ i, i < 3 →
        ([OpBehavior.returns (.vint 10), .returns (.vint 11),
          .returns (.vint 12)]).getD i defaultOp = .returns (res.getD i .vnone) := by
  refine ⟨by decide, ?_⟩
  exact c3_parallel_order_independent
    [OpBehavior.returns (.vint 10), .returns (.vint 11), .returns (.vint 12)] [2, 0, 1]
    (by decide) (by intro b hb; fin_cases hb <;> exact ⟨_, rfl, rfl⟩)

/-! ### C4: batch failure policy -/

/-- C4: when some operation's captured result is an exception, every
operation is still executed (every index appears in the completion
order), each raised exception is captured as that operation's result, and
the batch call raises exactly the first captured exception in
result-index order; the raised value does not depend on the completion
order. -/
theorem c4_batch_failure (ops : List OpBehavior) (order : List Nat)
    (hperm : order.Perm (List.range ops.length))
    (hex : ∃ i, i < ops.length ∧
      (runWithRatelimit (ops.getD i defaultOp)).isException = true) :
    (∀ i, i < ops.length → i ∈ order) ∧
    (∀ i tag msg, i < ops.length → ops.getD i defaultOp = .raises tag msg →
      (fillResults ops order).getD i .vnone = .vexn tag msg) ∧
    ∃ e k, parallel_requests ops order = .error e ∧
      k < ops.length ∧ runWithRatelimit (ops.getD k defaultOp) = e ∧
      e.isException = true ∧
      ∀ j, j < k → (runWithRatelimit (ops.getD j defaultOp)).isException = false := by
  obtain ⟨i0, hi0, hex0⟩ := hex
  refine ⟨fun i hi => hperm.mem_iff.mpr (List.mem_range.mpr hi), ?_, ?_⟩
  · intro i tag msg hi hop
    rw [fillResults_getD ops order i hi (hperm.mem_iff.mpr (List.mem_range.mpr hi)), hop]
    rfl
  · cases hfind : (fillResults ops order).find? (fun r => r.isException) with
    | none =>
      exfalso
      have hmem0 : runWithRatelimit (ops.getD i0 defaultOp) ∈ fillResults ops order := by
        rw [fillResults_eq_map ops order hperm, List.mem_map]
        exact ⟨ops.getD i0 defaultOp,
          by rw [List.getD_eq_getElem _ _ hi0]; exact List.getElem_mem hi0, rfl⟩
      exact List.find?_eq_none.mp hfind _ hmem0 hex0
    | some e =>
      obtain ⟨k, hk, hgd, hpe, hfirst⟩ := find?_some_first _ _ _ hfind
      have hkops : k < ops.length := by rwa [fillResults_length] at hk
      refine ⟨e, k, ?_, hkops, ?_, hpe, ?_⟩
      · simp only [parallel_requests]
        rw [hfind]
      · rw [← hgd,
          fillResults_getD ops order k hkops (hperm.mem_iff.mpr (List.mem_range.mpr hkops))]
      · intro j hj
        have hjops : j < ops.length := by omega
        have := hfirst j hj
        rwa [fillResults_getD ops order j hjops
          (hperm.mem_iff.mpr (List.mem_range.mpr hjops))] at this

/-- C4 witness: a batch where the second and third operations raise; all
three indices are executed and the exception of index 1 (first in index
order) is raised even though index 2 completed first. -/
theorem c4_batch_failure_witness :
    ([2, 1, 0] : List Nat).Perm (List.range 3) ∧
    (∀ i, i < 3 → i ∈ ([2, 1, 0] : List Nat)) ∧
    (fillResults [OpBehavior.returns (.vint 1), .raises 3 "boom", .raises 4 "later"]
      [2, 1, 0]).getD 1 .vnone = .vexn 3 "boom" ∧
    ∃ e k,
      parallel_requests [OpBehavior.returns (.vint 1), .raises 3 "boom", .raises 4 "later"]
        [2, 1, 0] = .error e ∧
      k < ([OpBehavior.returns (.vint 1), .raises 3 "boom", .raises 4 "later"]).length ∧
      runWithRatelimit (([OpBehavior.returns (.vint 1), .raises 3 "boom",
        .raises 4 "later"]).getD k defaultOp) = e ∧
      e.isException = true ∧
      ∀ j, j < k →
        (runWithRatelimit (([OpBehavior.returns (.vint 1), .raises 3 "boom",
          .raises 4 "later"]).getD j defaultOp)).isException = false := by
  have h := c4_batch_failure [OpBehavior.returns (.vint 1), .raises 3 "boom", .raises 4 "later"]
    [2, 1, 0] (by decide) ⟨1, by decide, by decide⟩
  exact ⟨by decide, h.1, h.2.1 1 3 "boom" (by decide) (by decide), h.2.2⟩

/-! ### C10: returned exception objects are indistinguishable from raised ones -/

/-- C10: an operation that RETURNS an `Exception` instance makes the
batch raise after all operations complete (the returned object itself
when no earlier-indexed result is an exception), and a successfully
returned results list never contains an `Exception` instance. -/
theorem c10_returned_exception (ops : List OpBehavior) (order : List Nat) (i : Nat) (v : PyVal)
    (hperm : order.Perm (List.range ops.length))
    (hi : i < ops.length)
    (hop : ops.getD i defaultOp = .returns v)
    (hexn : v.isException = true) :
    (∃ e, parallel_requests ops order = .error e ∧ e.isException = true) ∧
    ((∀ j, j < i → (runWithRatelimit (ops.getD j defaultOp)).isException = false) →
      parallel_requests ops order = .error v) ∧
    (∀ ops2 order2 res, parallel_requests ops2 order2 = .ok res →
      ∀ r ∈ res, r.isException = false) := by
  have hmem : i ∈ order := hperm.mem_iff.mpr (List.mem_range.mpr hi)
  have hrun : runWithRatelimit (ops.getD i defaultOp) = v := by rw [hop]; rfl
  refine ⟨?_, ?_, ?_⟩
  · cases hfind : (fillResults ops order).find? (fun r => r.isException) with
    | none =>
      exfalso
      have hmemv : v ∈ fillResults ops order := by
        rw [fillResults_eq_map ops order hperm, List.mem_map]
        exact ⟨ops.getD i defaultOp,
          by rw [List.getD_eq_getElem _ _ hi]; exact List.getElem_mem hi, hrun⟩
      exact List.find?_eq_none.mp hfind _ hmemv hexn
    | some e =>
      refine ⟨e, ?_, List.find?_some hfind⟩
      simp only [parallel_requests]
      rw [hfind]
  · intro hfirstv
    have hgd : (fillResults ops order).getD i .vnone = v := by
      rw [fillResults_getD ops order i hi hmem, hrun]
    have hfind := find?_of_first (fun r => r.isException) (fillResults ops order) i
      (by rw [fillResults_length]; exact hi)
      (by rw [hgd]; exact hexn)
      (fun j hj => by
        have hjops : j < ops.length := by omega
        rw [fillResults_getD ops order j hjops
          (hperm.mem_iff.mpr (List.mem_range.mpr hjops))]
        exact hfirstv j hj)
    simp only [parallel_requests]
    rw [hfind, hgd]
  · intro ops2 order2 res hok r hr
    simp only [parallel_requests] at hok
    cases hfind2 : (fillResults ops2 order2).find? (fun x => x.isException) with
    | some e => rw [hfind2] at hok; simp at hok
    | none =>
      rw [hfind2] at hok
      simp only [Except.ok.injEq] at hok
      subst hok
      have := List.find?_eq_none.mp hfind2 r hr
      simpa using this

/-- C10 witness: an operation returning (not raising) an exception object
makes the batch raise that object; the batch never returns it in a
results list. -/
theorem c10_returned_exception_witness :
    ([1, 0] : List Nat).Perm (List.range 2) ∧
    ([OpBehavior.returns (.vint 1), .returns (.vexn 9 "returned")]).getD 1 defaultOp =
      .returns (.vexn 9 "returned") ∧
    (PyVal.vexn 9 "returned").isException = true ∧
    parallel_requests [OpBehavior.returns (.vint 1), .returns (.vexn 9 "returned")] [1, 0] =
      .error (.vexn 9 "returned") := by
  have h := c10_returned_exception
    [OpBehavior.returns (.vint 1), .returns (.vexn 9 "returned")] [1, 0] 1
    (.vexn 9 "returned") (by decide) (by decide) (by decide) (by decide)
  exact ⟨by decide, by decide, by decide,
    h.2.1 (fun j hj => by
      have hj0 : j = 0 := by omega
      subst hj0
      decide)⟩

/-! ### Nine-slice helper lemmas -/

lemma pasteImg_w (dst src : Img) (px py : Int) : (pasteImg dst src px py).w = dst.w := rfl

lemma pasteImg_h (dst src : Img) (px py : Int) : (pasteImg dst src px py).h = dst.h := rfl

lemma cropImg_w (im : Img) (l t r b : Int) : (cropImg im (l, t, r, b)).w = r - l := rfl

lemma cropImg_h (im : Img) (l t r b : Int) : (cropImg im (l, t, r, b)).h = b - t := rfl

lemma newImg_w (w h : Int) : (newImg w h).w = w := rfl

lemma newImg_h (w h : Int) : (newImg w h).h = h := rfl

lemma resizeNearest_w (im : Img) (tw th : Int) : (resizeNearest im tw th).w = tw := rfl

lemma resizeNearest_h (im : Img) (tw th : Int) : (resizeNearest im tw th).h = th := rfl

lemma pasteImg_pix (dst src : Img) (px py x y : Int) :
    (pasteImg dst src px py).pix x y =
      if 0 ≤ x ∧ x < dst.w ∧ 0 ≤ y ∧ y < dst.h ∧
         px ≤ x ∧ x < px + src.w ∧ py ≤ y ∧ y < py + src.h
      then src.pix (x - px) (y - py) else dst.pix x y := rfl

lemma cropImg_pix (im : Img) (l t r b x y : Int) :
    (cropImg im (l, t, r, b)).pix x y =
      if 0 ≤ x ∧ x < r - l ∧ 0 ≤ y ∧ y < b - t ∧
         0 ≤ l + x ∧ l + x < im.w ∧ 0 ≤ t + y ∧ t + y < im.h
      then im.pix (l + x) (t + y) else zeroPix := rfl

lemma resizeNearest_pix (im : Img) (tw th x y : Int) :
    (resizeNearest im tw th).pix x y =
      if 0 ≤ x ∧ x < tw ∧ 0 ≤ y ∧ y < th then
        im.pix ((2 * x + 1) * im.w / (2 * tw)) ((2 * y + 1) * im.h / (2 * th))
      else zeroPix := rfl

lemma fold_paste_row_w (region : Img) (starts : List Int) (acc : Img) :
    (starts.foldl (fun tiled s => pasteImg tiled region s 0) acc).w = acc.w := by
  induction starts generalizing acc with
  | nil => rfl
  | cons s ss ih => rw [List.foldl_cons, ih, pasteImg_w]

lemma fold_paste_row_h (region : Img) (starts : List Int) (acc : Img) :
    (starts.foldl (fun tiled s => pasteImg tiled region s 0) acc).h = acc.h := by
  induction starts generalizing acc with
  | nil => rfl
  | cons s ss ih => rw [List.foldl_cons, ih, pasteImg_h]

lemma fold_paste_col_w (region : Img) (starts : List Int) (acc : Img) :
    (starts.foldl (fun tiled s => pasteImg tiled region 0 s) acc).w = acc.w := by
  induction starts generalizing acc with
  | nil => rfl
  | cons s ss ih => rw [List.foldl_cons, ih, pasteImg_w]

lemma fold_paste_col_h (region : Img) (starts : List Int) (acc : Img) :
    (starts.foldl (fun tiled s => pasteImg tiled region 0 s) acc).h = acc.h := by
  induction starts generalizing acc with
  | nil => rfl
  | cons s ss ih => rw [List.foldl_cons, ih, pasteImg_h]

/-- The value of a center where the source pixel index of a same-size
nearest-neighbor resize is the pixel itself. -/
lemma nearest_center_id (x w : Int) (hx0 : 0 ≤ x) (hxw : x < w) :
    (2 * x + 1) * w / (2 * w) = x := by
  have h1 : (2 * x + 1) * w = w + x * (2 * w) := by ring
  rw [h1, Int.add_mul_ediv_right _ _ (by omega : (2 : Int) * w ≠ 0),
    Int.ediv_eq_zero_of_lt (by omega) (by omega), zero_add]

lemma resizeNearest_pix_id (im : Img) (tw th x y : Int)
    (hw : tw = im.w) (hh : th = im.h)
    (hx0 : 0 ≤ x) (hx2 : x < tw) (hy0 : 0 ≤ y) (hy2 : y < th) :
    (resizeNearest im tw th).pix x y = im.pix x y := by
  subst hw hh
  rw [resizeNearest_pix, if_pos ⟨hx0, hx2, hy0, hy2⟩,
    nearest_center_id x im.w hx0 hx2, nearest_center_id y im.h hy0 hy2]

lemma tile_row_range_pix (region : Img) (stop : Int) (n : Nat) :
    ∀ x y : Int, 0 ≤ x → x < stop → x < region.w * n → 0 ≤ y → y < region.h →
      (((List.range n).map (fun i : Nat => region.w * (i : Int))).foldl
          (fun tiled s => pasteImg tiled region s 0) (newImg stop region.h)).pix x y
        = region.pix (x % region.w) y := by
  induction n with
  | zero =>
    intro x y hx0 hxs hxn hy0 hyh
    exfalso
    simp only [Nat.cast_zero, mul_zero] at hxn
    omega
  | succ m ih =>
    intro x y hx0 hxs hxn hy0 hyh
    rw [List.range_succ, List.map_append, List.foldl_append]
    simp only [List.map_cons, List.map_nil, List.foldl_cons, List.foldl_nil]
    push_cast at hxn
    have hw : 0 < region.w := by
      by_contra hle
      push_neg at hle
      have hm : (0 : Int) ≤ (m : Int) + 1 := by positivity
      have := mul_le_mul_of_nonneg_right hle hm
      simp only [zero_mul] at this
      omega
    set A := ((List.range m).map (fun i : Nat => region.w * (i : Int))).foldl
      (fun tiled s => pasteImg tiled region s 0) (newImg stop region.h) with hA
    have hAw : A.w = stop := by rw [hA, fold_paste_row_w, newImg_w]
    have hAh : A.h = region.h := by rw [hA, fold_paste_row_h, newImg_h]
    set s := region.w * (m : Int) with hs
    have hsucc : region.w * ((m : Int) + 1) = s + region.w := by rw [hs]; ring
    rw [hsucc] at hxn
    by_cases hcov : s ≤ x
    · rw [pasteImg_pix, hAw, hAh, if_pos (by omega)]
      have hxeq : x = (x - s) + region.w * (m : Int) := by rw [← hs]; omega
      have hmod : x % region.w = x - s := by
        conv_lhs => rw [hxeq]
        rw [Int.add_mul_emod_self_left]
        exact Int.emod_eq_of_lt (by omega) (by omega)
      rw [hmod, sub_zero]
    · rw [pasteImg_pix, hAw, hAh, if_neg (by omega)]
      exact ih x y hx0 hxs (by omega) hy0 hyh

lemma tile_col_range_pix (region : Img) (stop : Int) (n : Nat) :
    ∀ x y : Int, 0 ≤ y → y < stop → y < region.h * n → 0 ≤ x → x < region.w →
      (((List.range n).map (fun i : Nat => region.h * (i : Int))).foldl
          (fun tiled s => pasteImg tiled region 0 s) (newImg region.w stop)).pix x y
        = region.pix x (y % region.h) := by
  induction n with
  | zero =>
    intro x y hy0 hys hyn hx0 hxw
    exfalso
    simp only [Nat.cast_zero, mul_zero] at hyn
    omega
  | succ m ih =>
    intro x y hy0 hys hyn hx0 hxw
    rw [List.range_succ, List.map_append, List.foldl_append]
    simp only [List.map_cons, List.map_nil, List.foldl_cons, List.foldl_nil]
    push_cast at hyn
    have hh : 0 < region.h := by
      by_contra hle
      push_neg at hle
      have hm : (0 : Int) ≤ (m : Int) + 1 := by positivity
      have := mul_le_mul_of_nonneg_right hle hm
      simp only [zero_mul] at this
      omega
    set A := ((List.range m).map (fun i : Nat => region.h * (i : Int))).foldl
      (fun tiled s => pasteImg tiled region 0 s) (newImg region.w stop) with hA
    have hAw : A.w = region.w := by rw [hA, fold_paste_col_w, newImg_w]
    have hAh : A.h = stop := by rw [hA, fold_paste_col_h, newImg_h]
    set s := region.h * (m : Int) with hs
    have hsucc : region.h * ((m : Int) + 1) = s + region.h := by rw [hs]; ring
    rw [hsucc] at hyn
    by_cases hcov : s ≤ y
    · rw [pasteImg_pix, hAw, hAh, if_pos (by omega)]
      have hyeq : y = (y - s) + region.h * (m : Int) := by rw [← hs]; omega
      have hmod : y % region.h = y - s := by
        conv_lhs => rw [hyeq]
        rw [Int.add_mul_emod_self_left]
        exact Int.emod_eq_of_lt (by omega) (by omega)
      rw [hmod, sub_zero]
    · rw [pasteImg_pix, hAw, hAh, if_neg (by omega)]
      exact ih x y hy0 hys (by omega) hx0 hxw

/-- Number of tiles in `tileStarts` covers the target length. -/
lemma tileStarts_eq_range_map (stop step : Int) (hstep : 0 < step) :
    tileStarts stop step =
      (List.range ((stop - 1) / step + 1).toNat).map (fun i : Nat => step * (i : Int)) := by
  rw [tileStarts, if_pos hstep]

lemma tileStarts_bound (stop step : Int) (hstep : 0 < step) (hstop : 0 < stop) :
    stop ≤ step * ((((stop - 1) / step + 1).toNat : Nat) : Int) := by
  have hq : 0 ≤ (stop - 1) / step := Int.ediv_nonneg (by omega) (by omega)
  rw [Int.toNat_of_nonneg (by omega)]
  have hdm := Int.ediv_add_emod (stop - 1) step
  have hr1 : 0 ≤ (stop - 1) % step := Int.emod_nonneg _ (by omega)
  have hr2 : (stop - 1) % step < step := Int.emod_lt_of_pos _ hstep
  have hmul : step * ((stop - 1) / step + 1) = step * ((stop - 1) / step) + step := by
    ring
  linarith

lemma foldl_paste_any_w {β : Type} (f : Img → β → Img)
    (hpres : ∀ a c, (f a c).w = a.w) (l : List β) (acc : Img) :
    (l.foldl f acc).w = acc.w := by
  induction l generalizing acc with
  | nil => rfl
  | cons c cs ih => rw [List.foldl_cons, ih, hpres]

lemma foldl_paste_any_h {β : Type} (f : Img → β → Img)
    (hpres : ∀ a c, (f a c).h = a.h) (l : List β) (acc : Img) :
    (l.foldl f acc).h = acc.h := by
  induction l generalizing acc with
  | nil => rfl
  | cons c cs ih => rw [List.foldl_cons, ih, hpres]

lemma tile_row_pix (region : Img) (stop x y : Int)
    (hw : 0 < region.w) (hx0 : 0 ≤ x) (hxs : x < stop) (hy0 : 0 ≤ y) (hyh : y < region.h) :
    ((tileStarts stop region.w).foldl (fun tiled s => pasteImg tiled region s 0)
      (newImg stop region.h)).pix x y = region.pix (x % region.w) y := by
  rw [tileStarts_eq_range_map _ _ hw]
  exact tile_row_range_pix region stop _ x y hx0 hxs
    (lt_of_lt_of_le hxs (tileStarts_bound stop region.w hw (by omega))) hy0 hyh

lemma tile_col_pix (region : Img) (stop x y : Int)
    (hh : 0 < region.h) (hy0 : 0 ≤ y) (hys : y < stop) (hx0 : 0 ≤ x) (hxw : x < region.w) :
    ((tileStarts stop region.h).foldl (fun tiled s => pasteImg tiled region 0 s)
      (newImg region.w stop)).pix x y = region.pix x (y % region.h) := by
  rw [tileStarts_eq_range_map _ _ hh]
  exact tile_col_range_pix region stop _ x y hy0 hys
    (lt_of_lt_of_le hys (tileStarts_bound stop region.h hh (by omega))) hx0 hxw

lemma tileStarts_self (tw : Int) (h : 0 < tw) : tileStarts tw tw = [0] := by
  rw [tileStarts, if_pos h, Int.ediv_eq_zero_of_lt (by omega) (by omega)]
  have h1 : ((0 : Int) + 1).toNat = 1 := by decide
  rw [h1, List.range_succ, List.range_zero]
  simp

lemma stack_crop_range_pix (strip : Img) (tw th : Int) (n : Nat) (hww : strip.w = tw) :
    ∀ x y : Int, 0 ≤ x → x < tw → 0 ≤ y → y < th → y < strip.h * n → 0 < strip.h →
      (((List.range n).map (fun i : Nat => strip.h * (i : Int))).foldl
          (fun tiled s =>
            pasteImg tiled (cropImg strip (0, 0, tw, min strip.h (th - s))) 0 s)
          (newImg tw th)).pix x y = strip.pix x (y % strip.h) := by
  induction n with
  | zero =>
    intro x y hx0 hxw hy0 hyt hyn hh
    exfalso
    simp only [Nat.cast_zero, mul_zero] at hyn
    omega
  | succ m ih =>
    intro x y hx0 hxw hy0 hyt hyn hh
    rw [List.range_succ, List.map_append, List.foldl_append]
    simp only [List.map_cons, List.map_nil, List.foldl_cons, List.foldl_nil]
    push_cast at hyn
    set A := ((List.range m).map (fun i : Nat => strip.h * (i : Int))).foldl
      (fun tiled s =>
        pasteImg tiled (cropImg strip (0, 0, tw, min strip.h (th - s))) 0 s)
      (newImg tw th) with hA
    have hAw : A.w = tw := by
      rw [hA, foldl_paste_any_w
        (fun tiled s =>
          pasteImg tiled (cropImg strip (0, 0, tw, min strip.h (th - s))) 0 s)
        (fun a c => rfl), newImg_w]
    have hAh : A.h = th := by
      rw [hA, foldl_paste_any_h
        (fun tiled s =>
          pasteImg tiled (cropImg strip (0, 0, tw, min strip.h (th - s))) 0 s)
        (fun a c => rfl), newImg_h]
    set s := strip.h * (m : Int) with hs
    have hsucc : strip.h * ((m : Int) + 1) = s + strip.h := by rw [hs]; ring
    rw [hsucc] at hyn
    by_cases hcov : s ≤ y
    · rw [pasteImg_pix, hAw, hAh, cropImg_w, cropImg_h, if_pos (by omega),
        cropImg_pix, hww, if_pos (by omega)]
      have hyeq : y = (y - s) + strip.h * (m : Int) := by rw [← hs]; omega
      have hmod : y % strip.h = y - s := by
        conv_lhs => rw [hyeq]
        rw [Int.add_mul_emod_self_left]
        exact Int.emod_eq_of_lt (by omega) (by omega)
      rw [hmod]
      norm_num
    · rw [pasteImg_pix, hAw, hAh, cropImg_w, cropImg_h, if_neg (by omega)]
      exact ih x y hx0 hxw hy0 hyt (by omega) hh


lemma nineSliceRegion_untiled (cropped : Img) (l t r b W H : Int) (key : SliceKey) :
    nineSliceRegion cropped l t r b W H false key =
      resizeNearest (cropImg cropped (slice_dict b cropped.h cropped.w l r t key))
        ((slice_dict b H W l r t key).2.2.1 - (slice_dict b H W l r t key).1)
        ((slice_dict b H W l r t key).2.2.2 - (slice_dict b H W l r t key).2.1) := by
  cases key <;> simp [nineSliceRegion]

lemma grid_paste_w (srcf : Int → Int → Img) (xs ys : List Int) (acc : Img) :
    (xs.foldl (fun tiled x =>
      ys.foldl (fun tiled y => pasteImg tiled (srcf x y) x y) tiled) acc).w = acc.w := by
  induction xs generalizing acc with
  | nil => rfl
  | cons c cs ih =>
    rw [List.foldl_cons, ih]
    exact foldl_paste_any_w (fun tiled y => pasteImg tiled (srcf c y) c y) (fun a d => rfl) ys acc

lemma grid_paste_h (srcf : Int → Int → Img) (xs ys : List Int) (acc : Img) :
    (xs.foldl (fun tiled x =>
      ys.foldl (fun tiled y => pasteImg tiled (srcf x y) x y) tiled) acc).h = acc.h := by
  induction xs generalizing acc with
  | nil => rfl
  | cons c cs ih =>
    rw [List.foldl_cons, ih]
    exact foldl_paste_any_h (fun tiled y => pasteImg tiled (srcf c y) c y) (fun a d => rfl) ys acc

lemma nineSliceRegion_w (cropped : Img) (l t r b W H : Int) (tile : Bool) (key : SliceKey) :
    (nineSliceRegion cropped l t r b W H tile key).w =
      (slice_dict b H W l r t key).2.2.1 - (slice_dict b H W l r t key).1 := by
  cases tile
  · rw [nineSliceRegion_untiled, resizeNearest_w]
  · cases key <;>
      simp only [nineSliceRegion, slice_dict] <;>
      simp [cropImg_w, resizeNearest_w, grid_paste_w, newImg_w]

lemma nineSliceRegion_h (cropped : Img) (l t r b W H : Int) (tile : Bool) (key : SliceKey) :
    (nineSliceRegion cropped l t r b W H tile key).h =
      (slice_dict b H W l r t key).2.2.2 - (slice_dict b H W l r t key).2.1 := by
  cases tile
  · rw [nineSliceRegion_untiled, resizeNearest_h]
  · cases key <;>
      simp only [nineSliceRegion, slice_dict] <;>
      simp [cropImg_h, resizeNearest_h, grid_paste_h, newImg_h]


set_option maxHeartbeats 4000000 in
/-- Which processed region a pixel inside a given target box shows: the
pastes of the nine regions cover disjoint boxes, so the pixel equals the
region pasted for its own key, offset by the box origin. -/
lemma nine_slice_pix (image : Img) (l t r b W H : Int) (tile : Bool)
    (padL padT padR padB : Int) (key : SliceKey) (x y : Int)
    (hl : 0 ≤ l) (ht : 0 ≤ t) (hr : 0 ≤ r) (hb : 0 ≤ b)
    (hW : l + r ≤ W) (hH : t + b ≤ H)
    (hx1 : (slice_dict b H W l r t key).1 ≤ x)
    (hx2 : x < (slice_dict b H W l r t key).2.2.1)
    (hy1 : (slice_dict b H W l r t key).2.1 ≤ y)
    (hy2 : y < (slice_dict b H W l r t key).2.2.2) :
    (nine_slice_scale image l t r b W H tile (padL, padT, padR, padB)).pix x y =
      (nineSliceRegion (nineSliceCropped image (padL, padT, padR, padB)) l t r b W H tile
        key).pix
        (x - (slice_dict b H W l r t key).1) (y - (slice_dict b H W l r t key).2.1) := by
  cases key <;>
  · simp only [slice_dict] at hx1 hx2 hy1 hy2 ⊢
    simp only [nine_slice_scale, keysOrder, List.foldl_cons, List.foldl_nil,
      pasteImg_pix, pasteImg_w, pasteImg_h, newImg_w, newImg_h,
      nineSliceRegion_w, nineSliceRegion_h, slice_dict]
    split_ifs <;> first | rfl | omega


lemma stack_crop_pix (strip : Img) (tw th x y : Int) (hww : strip.w = tw)
    (hh : 0 < strip.h) (hx0 : 0 ≤ x) (hxw : x < tw) (hy0 : 0 ≤ y) (hyt : y < th) :
    ((tileStarts th strip.h).foldl
        (fun tiled s => pasteImg tiled (cropImg strip (0, 0, tw, min strip.h (th - s))) 0 s)
        (newImg tw th)).pix x y = strip.pix x (y % strip.h) := by
  rw [tileStarts_eq_range_map _ _ hh]
  exact stack_crop_range_pix strip tw th _ hww x y hx0 hxw hy0 hyt
    (lt_of_lt_of_le hyt (tileStarts_bound th strip.h hh (by omega))) hh

lemma nineSliceRegion_top_tiled_form (cropped : Img) (l t r b W H : Int) :
    nineSliceRegion cropped l t r b W H true .top =
      resizeNearest
        ((tileStarts (W - r - l) (cropImg cropped (l, 0, cropped.w - r, t)).w).foldl
          (fun tiled s => pasteImg tiled (cropImg cropped (l, 0, cropped.w - r, t)) s 0)
          (newImg (W - r - l) (cropImg cropped (l, 0, cropped.w - r, t)).h))
        (W - r - l) t := by
  simp [nineSliceRegion, slice_dict]

lemma nineSliceRegion_bottom_tiled_form (cropped : Img) (l t r b W H : Int) :
    nineSliceRegion cropped l t r b W H true .bottom =
      resizeNearest
        ((tileStarts (W - r - l)
            (cropImg cropped (l, cropped.h - b, cropped.w - r, cropped.h)).w).foldl
          (fun tiled s =>
            pasteImg tiled (cropImg cropped (l, cropped.h - b, cropped.w - r, cropped.h)) s 0)
          (newImg (W - r - l)
            (cropImg cropped (l, cropped.h - b, cropped.w - r, cropped.h)).h))
        (W - r - l) (H - (H - b)) := by
  simp [nineSliceRegion, slice_dict]

lemma nineSliceRegion_left_tiled_form (cropped : Img) (l t r b W H : Int) :
    nineSliceRegion cropped l t r b W H true .left =
      resizeNearest
        ((tileStarts (H - b - t) (cropImg cropped (0, t, l, cropped.h - b)).h).foldl
          (fun tiled s => pasteImg tiled (cropImg cropped (0, t, l, cropped.h - b)) 0 s)
          (newImg (cropImg cropped (0, t, l, cropped.h - b)).w (H - b - t)))
        l (H - b - t) := by
  simp [nineSliceRegion, slice_dict]

lemma nineSliceRegion_right_tiled_form (cropped : Img) (l t r b W H : Int) :
    nineSliceRegion cropped l t r b W H true .right =
      resizeNearest
        ((tileStarts (H - b - t)
            (cropImg cropped (cropped.w - r, t, cropped.w, cropped.h - b)).h).foldl
          (fun tiled s =>
            pasteImg tiled (cropImg cropped (cropped.w - r, t, cropped.w, cropped.h - b)) 0 s)
          (newImg (cropImg cropped (cropped.w - r, t, cropped.w, cropped.h - b)).w (H - b - t)))
        (W - (W - r)) (H - b - t) := by
  simp [nineSliceRegion, slice_dict]

lemma nineSliceRegion_center_tiled_form (cropped : Img) (l t r b W H : Int) :
    nineSliceRegion cropped l t r b W H true .center =
      (tileStarts (W - r - l)
        ((tileStarts (W - r - l) (cropImg cropped (l, t, cropped.w - r, cropped.h - b)).w).foldl
          (fun tiled s =>
            pasteImg tiled (cropImg cropped (l, t, cropped.w - r, cropped.h - b)) s 0)
          (newImg (W - r - l)
            (cropImg cropped (l, t, cropped.w - r, cropped.h - b)).h)).w).foldl
        (fun tiled x =>
          (tileStarts (H - b - t)
            ((tileStarts (W - r - l)
                (cropImg cropped (l, t, cropped.w - r, cropped.h - b)).w).foldl
              (fun tiled s =>
                pasteImg tiled (cropImg cropped (l, t, cropped.w - r, cropped.h - b)) s 0)
              (newImg (W - r - l)
                (cropImg cropped (l, t, cropped.w - r, cropped.h - b)).h)).h).foldl
            (fun tiled y =>
              pasteImg tiled
                (cropImg
                  ((tileStarts (W - r - l)
                      (cropImg cropped (l, t, cropped.w - r, cropped.h - b)).w).foldl
                    (fun tiled s =>
                      pasteImg tiled (cropImg cropped (l, t, cropped.w - r, cropped.h - b)) s 0)
                    (newImg (W - r - l)
                      (cropImg cropped (l, t, cropped.w - r, cropped.h - b)).h))
                  (0, 0,
                    min ((tileStarts (W - r - l)
                        (cropImg cropped (l, t, cropped.w - r, cropped.h - b)).w).foldl
                      (fun tiled s =>
                        pasteImg tiled (cropImg cropped (l, t, cropped.w - r, cropped.h - b)) s 0)
                      (newImg (W - r - l)
                        (cropImg cropped (l, t, cropped.w - r, cropped.h - b)).h)).w
                      (W - r - l - x),
                    min ((tileStarts (W - r - l)
                        (cropImg cropped (l, t, cropped.w - r, cropped.h - b)).w).foldl
                      (fun tiled s =>
                        pasteImg tiled (cropImg cropped (l, t, cropped.w - r, cropped.h - b)) s 0)
                      (newImg (W - r - l)
                        (cropImg cropped (l, t, cropped.w - r, cropped.h - b)).h)).h
                      (H - b - t - y)))
                x y)
            tiled)
        (newImg (W - r - l) (H - b - t)) := by
  simp [nineSliceRegion, slice_dict]

lemma nineSliceRegion_top_tiled (cropped : Img) (l t r b W H : Int) (x y : Int)
    (hsw : 0 < cropped.w - r - l)
    (hx0 : 0 ≤ x) (hx2 : x < W - r - l) (hy0 : 0 ≤ y) (hy2 : y < t) :
    (nineSliceRegion cropped l t r b W H true .top).pix x y =
      (cropImg cropped (l, 0, cropped.w - r, t)).pix (x % (cropped.w - r - l)) y := by
  rw [nineSliceRegion_top_tiled_form]
  set C := cropImg cropped (l, 0, cropped.w - r, t) with hC
  have hCw : C.w = cropped.w - r - l := by rw [hC, cropImg_w]
  have hCh : C.h = t := by rw [hC, cropImg_h]; omega
  set R := (tileStarts (W - r - l) C.w).foldl
    (fun tiled s => pasteImg tiled C s 0) (newImg (W - r - l) C.h) with hR
  have hRw : R.w = W - r - l := by rw [hR, fold_paste_row_w, newImg_w]
  have hRh : R.h = C.h := by rw [hR, fold_paste_row_h, newImg_h]
  rw [resizeNearest_pix_id R (W - r - l) t x y hRw.symm (by rw [hRh, hCh]) hx0 hx2 hy0 hy2,
    hR, tile_row_pix C (W - r - l) x y (by omega) hx0 hx2 hy0 (by omega), hCw]

lemma nineSliceRegion_bottom_tiled (cropped : Img) (l t r b W H : Int) (x y : Int)
    (hsw : 0 < cropped.w - r - l)
    (hx0 : 0 ≤ x) (hx2 : x < W - r - l) (hy0 : 0 ≤ y) (hy2 : y < b) :
    (nineSliceRegion cropped l t r b W H true .bottom).pix x y =
      (cropImg cropped (l, cropped.h - b, cropped.w - r, cropped.h)).pix
        (x % (cropped.w - r - l)) y := by
  rw [nineSliceRegion_bottom_tiled_form]
  set C := cropImg cropped (l, cropped.h - b, cropped.w - r, cropped.h) with hC
  have hCw : C.w = cropped.w - r - l := by rw [hC, cropImg_w]
  have hCh : C.h = b := by rw [hC, cropImg_h]; omega
  set R := (tileStarts (W - r - l) C.w).foldl
    (fun tiled s => pasteImg tiled C s 0) (newImg (W - r - l) C.h) with hR
  have hRw : R.w = W - r - l := by rw [hR, fold_paste_row_w, newImg_w]
  have hRh : R.h = C.h := by rw [hR, fold_paste_row_h, newImg_h]
  rw [resizeNearest_pix_id R (W - r - l) (H - (H - b)) x y hRw.symm
      (by rw [hRh, hCh]; omega) hx0 hx2 hy0 (by omega),
    hR, tile_row_pix C (W - r - l) x y (by omega) hx0 hx2 hy0 (by omega), hCw]

lemma nineSliceRegion_left_tiled (cropped : Img) (l t r b W H : Int) (x y : Int)
    (hsh : 0 < cropped.h - b - t)
    (hx0 : 0 ≤ x) (hx2 : x < l) (hy0 : 0 ≤ y) (hy2 : y < H - b - t) :
    (nineSliceRegion cropped l t r b W H true .left).pix x y =
      (cropImg cropped (0, t, l, cropped.h - b)).pix x (y % (cropped.h - b - t)) := by
  rw [nineSliceRegion_left_tiled_form]
  set C := cropImg cropped (0, t, l, cropped.h - b) with hC
  have hCw : C.w = l := by rw [hC, cropImg_w]; omega
  have hCh : C.h = cropped.h - b - t := by rw [hC, cropImg_h]
  set R := (tileStarts (H - b - t) C.h).foldl
    (fun tiled s => pasteImg tiled C 0 s) (newImg C.w (H - b - t)) with hR
  have hRw : R.w = C.w := by rw [hR, fold_paste_col_w, newImg_w]
  have hRh : R.h = H - b - t := by rw [hR, fold_paste_col_h, newImg_h]
  rw [resizeNearest_pix_id R l (H - b - t) x y (by rw [hRw, hCw]) hRh.symm hx0 hx2 hy0 hy2,
    hR, tile_col_pix C (H - b - t) x y (by omega) hy0 hy2 hx0 (by omega), hCh]

lemma nineSliceRegion_right_tiled (cropped : Img) (l t r b W H : Int) (x y : Int)
    (hsh : 0 < cropped.h - b - t)
    (hx0 : 0 ≤ x) (hx2 : x < r) (hy0 : 0 ≤ y) (hy2 : y < H - b - t) :
    (nineSliceRegion cropped l t r b W H true .right).pix x y =
      (cropImg cropped (cropped.w - r, t, cropped.w, cropped.h - b)).pix x
        (y % (cropped.h - b - t)) := by
  rw [nineSliceRegion_right_tiled_form]
  set C := cropImg cropped (cropped.w - r, t, cropped.w, cropped.h - b) with hC
  have hCw : C.w = r := by rw [hC, cropImg_w]; omega
  have hCh : C.h = cropped.h - b - t := by rw [hC, cropImg_h]
  set R := (tileStarts (H - b - t) C.h).foldl
    (fun tiled s => pasteImg tiled C 0 s) (newImg C.w (H - b - t)) with hR
  have hRw : R.w = C.w := by rw [hR, fold_paste_col_w, newImg_w]
  have hRh : R.h = H - b - t := by rw [hR, fold_paste_col_h, newImg_h]
  rw [resizeNearest_pix_id R (W - (W - r)) (H - b - t) x y (by rw [hRw, hCw]; omega)
      hRh.symm hx0 (by omega) hy0 hy2,
    hR, tile_col_pix C (H - b - t) x y (by omega) hy0 hy2 hx0 (by omega), hCh]

lemma nineSliceRegion_center_tiled (cropped : Img) (l t r b W H : Int) (x y : Int)
    (hsw : 0 < cropped.w - r - l) (hsh : 0 < cropped.h - b - t)
    (hx0 : 0 ≤ x) (hx2 : x < W - r - l) (hy0 : 0 ≤ y) (hy2 : y < H - b - t) :
    (nineSliceRegion cropped l t r b W H true .center).pix x y =
      (cropImg cropped (l, t, cropped.w - r, cropped.h - b)).pix
        (x % (cropped.w - r - l)) (y % (cropped.h - b - t)) := by
  rw [nineSliceRegion_center_tiled_form]
  set C := cropImg cropped (l, t, cropped.w - r, cropped.h - b) with hC
  have hCw : C.w = cropped.w - r - l := by rw [hC, cropImg_w]
  have hCh : C.h = cropped.h - b - t := by rw [hC, cropImg_h]
  set S := (tileStarts (W - r - l) C.w).foldl
    (fun tiled s => pasteImg tiled C s 0) (newImg (W - r - l) C.h) with hS
  have hSw : S.w = W - r - l := by rw [hS, fold_paste_row_w, newImg_w]
  have hSh : S.h = C.h := by rw [hS, fold_paste_row_h, newImg_h]
  have htw : 0 < W - r - l := by omega
  rw [show tileStarts (W - r - l) S.w = [0] from by rw [hSw]; exact tileStarts_self _ htw,
    List.foldl_cons, List.foldl_nil]
  simp only [sub_zero, hSw, min_self]
  rw [stack_crop_pix S (W - r - l) (H - b - t) x y hSw (by rw [hSh, hCh]; omega)
      hx0 hx2 hy0 hy2,
    hSh, hCh, hS,
    tile_row_pix C (W - r - l) x (y % (cropped.h - b - t)) (by omega) hx0 hx2
      (Int.emod_nonneg y (by omega)) (by rw [hCh]; exact Int.emod_lt_of_pos y hsh),
    hCw]


/-! ### C6 and C7: nine-slice scaling -/


lemma nineSliceCropped_w (image : Img) (padL padT padR padB : Int) :
    (nineSliceCropped image (padL, padT, padR, padB)).w = image.w - padR - padL := rfl

lemma nineSliceCropped_h (image : Img) (padL padT padR padB : Int) :
    (nineSliceCropped image (padL, padT, padR, padB)).h = image.h - padB - padT := rfl

/-- C6: with tile=false the four corner regions appear in the output at
their native source size at the four corners of the target canvas, and
every edge and center region is the nearest-neighbor resize of its
source region placed at its target box. -/
theorem c6_nine_slice_untiled (image : Img) (l t r b W H padL padT padR padB : Int)
    (hl : 0 ≤ l) (ht : 0 ≤ t) (hr : 0 ≤ r) (hb : 0 ≤ b)
    (hW : l + r ≤ W) (hH : t + b ≤ H)
    (hsW : l + r ≤ image.w - padR - padL) (hsH : t + b ≤ image.h - padB - padT) :
    (∀ u v : Int, 0 ≤ u → u < l → 0 ≤ v → v < t →
      (nine_slice_scale image l t r b W H false (padL, padT, padR, padB)).pix u v =
        (nineSliceCropped image (padL, padT, padR, padB)).pix u v) ∧
    (∀ u v : Int, 0 ≤ u → u < r → 0 ≤ v → v < t →
      (nine_slice_scale image l t r b W H false (padL, padT, padR, padB)).pix (W - r + u) v =
        (nineSliceCropped image (padL, padT, padR, padB)).pix
          (image.w - padR - padL - r + u) v) ∧
    (∀ u v : Int, 0 ≤ u → u < l → 0 ≤ v → v < b →
      (nine_slice_scale image l t r b W H false (padL, padT, padR, padB)).pix u (H - b + v) =
        (nineSliceCropped image (padL, padT, padR, padB)).pix u
          (image.h - padB - padT - b + v)) ∧
    (∀ u v : Int, 0 ≤ u → u < r → 0 ≤ v → v < b →
      (nine_slice_scale image l t r b W H false (padL, padT, padR, padB)).pix
          (W - r + u) (H - b + v) =
        (nineSliceCropped image (padL, padT, padR, padB)).pix
          (image.w - padR - padL - r + u) (image.h - padB - padT - b + v)) ∧
    (∀ x y : Int, l ≤ x → x < W - r → 0 ≤ y → y < t →
      (nine_slice_scale image l t r b W H false (padL, padT, padR, padB)).pix x y =
        (resizeNearest (cropImg (nineSliceCropped image (padL, padT, padR, padB))
            (l, 0, image.w - padR - padL - r, t)) (W - r - l) t).pix (x - l) y) ∧
    (∀ x y : Int, l ≤ x → x < W - r → H - b ≤ y → y < H →
      (nine_slice_scale image l t r b W H false (padL, padT, padR, padB)).pix x y =
        (resizeNearest (cropImg (nineSliceCropped image (padL, padT, padR, padB))
            (l, image.h - padB - padT - b, image.w - padR - padL - r,
             image.h - padB - padT)) (W - r - l) b).pix (x - l) (y - (H - b))) ∧
    (∀ x y : Int, 0 ≤ x → x < l → t ≤ y → y < H - b →
      (nine_slice_scale image l t r b W H false (padL, padT, padR, padB)).pix x y =
        (resizeNearest (cropImg (nineSliceCropped image (padL, padT, padR, padB))
            (0, t, l, image.h - padB - padT - b)) l (H - b - t)).pix x (y - t)) ∧
    (∀ x y : Int, W - r ≤ x → x < W → t ≤ y → y < H - b →
      (nine_slice_scale image l t r b W H false (padL, padT, padR, padB)).pix x y =
        (resizeNearest (cropImg (nineSliceCropped image (padL, padT, padR, padB))
            (image.w - padR - padL - r, t, image.w - padR - padL,
             image.h - padB - padT - b)) r (H - b - t)).pix (x - (W - r)) (y - t)) ∧
    (∀ x y : Int, l ≤ x → x < W - r → t ≤ y → y < H - b →
      (nine_slice_scale image l t r b W H false (padL, padT, padR, padB)).pix x y =
        (resizeNearest (cropImg (nineSliceCropped image (padL, padT, padR, padB))
            (l, t, image.w - padR - padL - r, image.h - padB - padT - b))
          (W - r - l) (H - b - t)).pix (x - l) (y - t)) := by
  refine ⟨?_, ?_, ?_, ?_, ?_, ?_, ?_, ?_, ?_⟩
  · intro u v hu0 hu2 hv0 hv2
    rw [nine_slice_pix image l t r b W H false padL padT padR padB .top_left u v
      hl ht hr hb hW hH (by simp [slice_dict]; omega) (by simp [slice_dict]; omega)
      (by simp [slice_dict]; omega) (by simp [slice_dict]; omega)]
    rw [nineSliceRegion_untiled]
    simp only [slice_dict]
    rw [resizeNearest_pix_id _ _ _ _ _ (by rw [cropImg_w]) (by rw [cropImg_h])
      (by omega) (by omega) (by omega) (by omega)]
    rw [cropImg_pix, nineSliceCropped_w, nineSliceCropped_h, if_pos (by omega)]
    norm_num
  · intro u v hu0 hu2 hv0 hv2
    rw [nine_slice_pix image l t r b W H false padL padT padR padB .top_right (W - r + u) v
      hl ht hr hb hW hH (by simp [slice_dict]; omega) (by simp [slice_dict]; omega)
      (by simp [slice_dict]; omega) (by simp [slice_dict]; omega)]
    rw [nineSliceRegion_untiled]
    simp only [slice_dict, nineSliceCropped_w, nineSliceCropped_h]
    rw [resizeNearest_pix_id _ _ _ _ _ (by rw [cropImg_w]; omega) (by rw [cropImg_h])
      (by omega) (by omega) (by omega) (by omega)]
    rw [cropImg_pix, nineSliceCropped_w, nineSliceCropped_h, if_pos (by omega)]
    congr 1 <;> omega
  · intro u v hu0 hu2 hv0 hv2
    rw [nine_slice_pix image l t r b W H false padL padT padR padB .bottom_left u (H - b + v)
      hl ht hr hb hW hH (by simp [slice_dict]; omega) (by simp [slice_dict]; omega)
      (by simp [slice_dict]; omega) (by simp [slice_dict]; omega)]
    rw [nineSliceRegion_untiled]
    simp only [slice_dict, nineSliceCropped_w, nineSliceCropped_h]
    rw [resizeNearest_pix_id _ _ _ _ _ (by rw [cropImg_w]) (by rw [cropImg_h]; omega)
      (by omega) (by omega) (by omega) (by omega)]
    rw [cropImg_pix, nineSliceCropped_w, nineSliceCropped_h, if_pos (by omega)]
    congr 1 <;> omega
  · intro u v hu0 hu2 hv0 hv2
    rw [nine_slice_pix image l t r b W H false padL padT padR padB .bottom_right
      (W - r + u) (H - b + v)
      hl ht hr hb hW hH (by simp [slice_dict]; omega) (by simp [slice_dict]; omega)
      (by simp [slice_dict]; omega) (by simp [slice_dict]; omega)]
    rw [nineSliceRegion_untiled]
    simp only [slice_dict, nineSliceCropped_w, nineSliceCropped_h]
    rw [resizeNearest_pix_id _ _ _ _ _ (by rw [cropImg_w]; omega) (by rw [cropImg_h]; omega)
      (by omega) (by omega) (by omega) (by omega)]
    rw [cropImg_pix, nineSliceCropped_w, nineSliceCropped_h, if_pos (by omega)]
    congr 1 <;> omega
  · intro x y hx1 hx2 hy1 hy2
    rw [nine_slice_pix image l t r b W H false padL padT padR padB .top x y
      hl ht hr hb hW hH (by simp [slice_dict]; omega) (by simp [slice_dict]; omega)
      (by simp [slice_dict]; omega) (by simp [slice_dict]; omega)]
    rw [nineSliceRegion_untiled]
    simp only [slice_dict, nineSliceCropped_w, nineSliceCropped_h, sub_zero]
  · intro x y hx1 hx2 hy1 hy2
    rw [nine_slice_pix image l t r b W H false padL padT padR padB .bottom x y
      hl ht hr hb hW hH (by simp [slice_dict]; omega) (by simp [slice_dict]; omega)
      (by simp [slice_dict]; omega) (by simp [slice_dict]; omega)]
    rw [nineSliceRegion_untiled]
    simp only [slice_dict, nineSliceCropped_w, nineSliceCropped_h, sub_zero,
      show H - (H - b) = b from by omega]
  · intro x y hx1 hx2 hy1 hy2
    rw [nine_slice_pix image l t r b W H false padL padT padR padB .left x y
      hl ht hr hb hW hH (by simp [slice_dict]; omega) (by simp [slice_dict]; omega)
      (by simp [slice_dict]; omega) (by simp [slice_dict]; omega)]
    rw [nineSliceRegion_untiled]
    simp only [slice_dict, nineSliceCropped_w, nineSliceCropped_h, sub_zero]
  · intro x y hx1 hx2 hy1 hy2
    rw [nine_slice_pix image l t r b W H false padL padT padR padB .right x y
      hl ht hr hb hW hH (by simp [slice_dict]; omega) (by simp [slice_dict]; omega)
      (by simp [slice_dict]; omega) (by simp [slice_dict]; omega)]
    rw [nineSliceRegion_untiled]
    simp only [slice_dict, nineSliceCropped_w, nineSliceCropped_h, sub_zero,
      show W - (W - r) = r from by omega]
  · intro x y hx1 hx2 hy1 hy2
    rw [nine_slice_pix image l t r b W H false padL padT padR padB .center x y
      hl ht hr hb hW hH (by simp [slice_dict]; omega) (by simp [slice_dict]; omega)
      (by simp [slice_dict]; omega) (by simp [slice_dict]; omega)]
    rw [nineSliceRegion_untiled]
    simp only [slice_dict, nineSliceCropped_w, nineSliceCropped_h, sub_zero]

/-- C7: with tile=true, each tiled region's rendered content is periodic
with period equal to the source region's dimension along the variable
axis (both axes for the center): every output pixel inside a tiled box
equals the source-region pixel at the offset reduced modulo the source
period, which makes the final partial tile a truncated copy, never a
scaled one. -/
theorem c7_nine_slice_tiled (image : Img) (l t r b W H padL padT padR padB : Int)
    (hl : 0 ≤ l) (ht : 0 ≤ t) (hr : 0 ≤ r) (hb : 0 ≤ b)
    (hW : l + r ≤ W) (hH : t + b ≤ H)
    (hsw : 0 < image.w - padR - padL - r - l) (hsh : 0 < image.h - padB - padT - b - t) :
    (∀ x y : Int, l ≤ x → x < W - r → 0 ≤ y → y < t →
      (nine_slice_scale image l t r b W H true (padL, padT, padR, padB)).pix x y =
        (nineSliceCropped image (padL, padT, padR, padB)).pix
          (l + (x - l) % (image.w - padR - padL - r - l)) y) ∧
    (∀ x y : Int, l ≤ x → x < W - r → H - b ≤ y → y < H →
      (nine_slice_scale image l t r b W H true (padL, padT, padR, padB)).pix x y =
        (nineSliceCropped image (padL, padT, padR, padB)).pix
          (l + (x - l) % (image.w - padR - padL - r - l))
          (image.h - padB - padT - b + (y - (H - b)))) ∧
    (∀ x y : Int, 0 ≤ x → x < l → t ≤ y → y < H - b →
      (nine_slice_scale image l t r b W H true (padL, padT, padR, padB)).pix x y =
        (nineSliceCropped image (padL, padT, padR, padB)).pix x
          (t + (y - t) % (image.h - padB - padT - b - t))) ∧
    (∀ x y : Int, W - r ≤ x → x < W → t ≤ y → y < H - b →
      (nine_slice_scale image l t r b W H true (padL, padT, padR, padB)).pix x y =
        (nineSliceCropped image (padL, padT, padR, padB)).pix
          (image.w - padR - padL - r + (x - (W - r)))
          (t + (y - t) % (image.h - padB - padT - b - t))) ∧
    (∀ x y : Int, l ≤ x → x < W - r → t ≤ y → y < H - b →
      (nine_slice_scale image l t r b W H true (padL, padT, padR, padB)).pix x y =
        (nineSliceCropped image (padL, padT, padR, padB)).pix
          (l + (x - l) % (image.w - padR - padL - r - l))
          (t + (y - t) % (image.h - padB - padT - b - t))) := by
  refine ⟨?_, ?_, ?_, ?_, ?_⟩
  · intro x y hx1 hx2 hy1 hy2
    rw [nine_slice_pix image l t r b W H true padL padT padR padB .top x y
      hl ht hr hb hW hH (by simp [slice_dict]; omega) (by simp [slice_dict]; omega)
      (by simp [slice_dict]; omega) (by simp [slice_dict]; omega)]
    simp only [slice_dict]
    rw [nineSliceRegion_top_tiled _ l t r b W H (x - l) (y - 0)
      (by rw [nineSliceCropped_w]; omega) (by omega) (by omega) (by omega) (by omega)]
    rw [cropImg_pix, nineSliceCropped_w, nineSliceCropped_h]
    set m := (x - l) % (image.w - padR - padL - r - l) with hm
    have hm0 : 0 ≤ m := Int.emod_nonneg _ (by omega)
    have hm1 : m < image.w - padR - padL - r - l := Int.emod_lt_of_pos _ (by omega)
    rw [if_pos (by omega)]
    norm_num
  · intro x y hx1 hx2 hy1 hy2
    rw [nine_slice_pix image l t r b W H true padL padT padR padB .bottom x y
      hl ht hr hb hW hH (by simp [slice_dict]; omega) (by simp [slice_dict]; omega)
      (by simp [slice_dict]; omega) (by simp [slice_dict]; omega)]
    simp only [slice_dict]
    rw [nineSliceRegion_bottom_tiled _ l t r b W H (x - l) (y - (H - b))
      (by rw [nineSliceCropped_w]; omega) (by omega) (by omega) (by omega) (by omega)]
    rw [cropImg_pix, nineSliceCropped_w, nineSliceCropped_h]
    set m := (x - l) % (image.w - padR - padL - r - l) with hm
    have hm0 : 0 ≤ m := Int.emod_nonneg _ (by omega)
    have hm1 : m < image.w - padR - padL - r - l := Int.emod_lt_of_pos _ (by omega)
    rw [if_pos (by omega)]
  · intro x y hx1 hx2 hy1 hy2
    rw [nine_slice_pix image l t r b W H true padL padT padR padB .left x y
      hl ht hr hb hW hH (by simp [slice_dict]; omega) (by simp [slice_dict]; omega)
      (by simp [slice_dict]; omega) (by simp [slice_dict]; omega)]
    simp only [slice_dict]
    rw [nineSliceRegion_left_tiled _ l t r b W H (x - 0) (y - t)
      (by rw [nineSliceCropped_h]; omega) (by omega) (by omega) (by omega) (by omega)]
    rw [cropImg_pix, nineSliceCropped_w, nineSliceCropped_h]
    set m := (y - t) % (image.h - padB - padT - b - t) with hm
    have hm0 : 0 ≤ m := Int.emod_nonneg _ (by omega)
    have hm1 : m < image.h - padB - padT - b - t := Int.emod_lt_of_pos _ (by omega)
    rw [if_pos (by omega)]
    norm_num
  · intro x y hx1 hx2 hy1 hy2
    rw [nine_slice_pix image l t r b W H true padL padT padR padB .right x y
      hl ht hr hb hW hH (by simp [slice_dict]; omega) (by simp [slice_dict]; omega)
      (by simp [slice_dict]; omega) (by simp [slice_dict]; omega)]
    simp only [slice_dict]
    rw [nineSliceRegion_right_tiled _ l t r b W H (x - (W - r)) (y - t)
      (by rw [nineSliceCropped_h]; omega) (by omega) (by omega) (by omega) (by omega)]
    rw [cropImg_pix, nineSliceCropped_w, nineSliceCropped_h]
    set m := (y - t) % (image.h - padB - padT - b - t) with hm
    have hm0 : 0 ≤ m := Int.emod_nonneg _ (by omega)
    have hm1 : m < image.h - padB - padT - b - t := Int.emod_lt_of_pos _ (by omega)
    rw [if_pos (by omega)]
  · intro x y hx1 hx2 hy1 hy2
    rw [nine_slice_pix image l t r b W H true padL padT padR padB .center x y
      hl ht hr hb hW hH (by simp [slice_dict]; omega) (by simp [slice_dict]; omega)
      (by simp [slice_dict]; omega) (by simp [slice_dict]; omega)]
    simp only [slice_dict]
    rw [nineSliceRegion_center_tiled _ l t r b W H (x - l) (y - t)
      (by rw [nineSliceCropped_w]; omega) (by rw [nineSliceCropped_h]; omega)
      (by omega) (by omega) (by omega) (by omega)]
    rw [cropImg_pix, nineSliceCropped_w, nineSliceCropped_h]
    set m1 := (x - l) % (image.w - padR - padL - r - l) with hm1e
    set m2 := (y - t) % (image.h - padB - padT - b - t) with hm2e
    have hm10 : 0 ≤ m1 := Int.emod_nonneg _ (by omega)
    have hm11 : m1 < image.w - padR - padL - r - l := Int.emod_lt_of_pos _ (by omega)
    have hm20 : 0 ≤ m2 := Int.emod_nonneg _ (by omega)
    have hm21 : m2 < image.h - padB - padT - b - t := Int.emod_lt_of_pos _ (by omega)
    rw [if_pos (by omega)]

/-- C6 witness: the spec's concrete scenario, insets 2, source 10x10,
target 20x20, untiled: a top-left corner pixel, a top-right corner pixel
and a center pixel. -/
theorem c6_nine_slice_untiled_witness :
    ((0 : Int) ≤ 2 ∧ 2 + 2 ≤ 20 ∧ 2 + 2 ≤ nsTestImg.w - 0 - 0 ∧
      2 + 2 ≤ nsTestImg.h - 0 - 0) ∧
    (nine_slice_scale nsTestImg 2 2 2 2 20 20 false (0, 0, 0, 0)).pix 1 1 =
      (nineSliceCropped nsTestImg (0, 0, 0, 0)).pix 1 1 ∧
    (nine_slice_scale nsTestImg 2 2 2 2 20 20 false (0, 0, 0, 0)).pix (20 - 2 + 1) 0 =
      (nineSliceCropped nsTestImg (0, 0, 0, 0)).pix (nsTestImg.w - 0 - 0 - 2 + 1) 0 ∧
    (nine_slice_scale nsTestImg 2 2 2 2 20 20 false (0, 0, 0, 0)).pix 9 9 =
      (resizeNearest
          (cropImg (nineSliceCropped nsTestImg (0, 0, 0, 0))
            (2, 2, nsTestImg.w - 0 - 0 - 2, nsTestImg.h - 0 - 0 - 2))
          (20 - 2 - 2) (20 - 2 - 2)).pix (9 - 2) (9 - 2) := by
  have h := c6_nine_slice_untiled nsTestImg 2 2 2 2 20 20 0 0 0 0
    (by norm_num) (by norm_num) (by norm_num) (by norm_num) (by norm_num) (by norm_num)
    (by decide) (by decide)
  exact ⟨⟨by norm_num, by norm_num, by decide, by decide⟩,
    h.1 1 1 (by norm_num) (by norm_num) (by norm_num) (by norm_num),
    h.2.1 1 0 (by norm_num) (by norm_num) (by norm_num) (by norm_num),
    h.2.2.2.2.2.2.2.2 9 9 (by norm_num) (by norm_num) (by norm_num) (by norm_num)⟩

/-- C7 witness: same geometry with tile=true: a top-edge pixel past the
first repetition and a center pixel, both reduced modulo the source
period. -/
theorem c7_nine_slice_tiled_witness :
    ((0 : Int) < nsTestImg.w - 0 - 0 - 2 - 2 ∧ (0 : Int) < nsTestImg.h - 0 - 0 - 2 - 2) ∧
    (nine_slice_scale nsTestImg 2 2 2 2 20 20 true (0, 0, 0, 0)).pix 8 1 =
      (nineSliceCropped nsTestImg (0, 0, 0, 0)).pix
        (2 + (8 - 2) % (nsTestImg.w - 0 - 0 - 2 - 2)) 1 ∧
    (nine_slice_scale nsTestImg 2 2 2 2 20 20 true (0, 0, 0, 0)).pix 9 15 =
      (nineSliceCropped nsTestImg (0, 0, 0, 0)).pix
        (2 + (9 - 2) % (nsTestImg.w - 0 - 0 - 2 - 2))
        (2 + (15 - 2) % (nsTestImg.h - 0 - 0 - 2 - 2)) := by
  have h := c7_nine_slice_tiled nsTestImg 2 2 2 2 20 20 0 0 0 0
    (by norm_num) (by norm_num) (by norm_num) (by norm_num) (by norm_num) (by norm_num)
    (by decide) (by decide)
  exact ⟨⟨by decide, by decide⟩,
    h.1 8 1 (by norm_num) (by norm_num) (by norm_num) (by norm_num),
    h.2.2.2.2 9 15 (by norm_num) (by norm_num) (by norm_num) (by norm_num)⟩

end OhMyColormap
